import Mathlib

/-!
Verification of the record-linker matching/scoring engine and reconciliation
workflow engine against its natural-language specification.

The Python services under `backend/app/services/` are shallowly embedded:
pure scoring code (`matching_service.py`) becomes pure Lean functions, and
the database-backed workflow services (`project_service.py`,
`candidate_service.py`) become pure functions over an explicit `DB` state.
Python `float` weights are modelled as exact rationals (`ℚ`); Python `int`
values as `ℤ`/`ℕ`.  Rational arithmetic is routed through `Rat.divInt` so
that every definition evaluates inside the kernel.
-/

namespace RecordLinker

/-! ## Calendar arithmetic (model of Python `datetime.date`) -/

/-- Proleptic Gregorian leap-year test, as used by `datetime`. -/
def isLeap (y : Nat) : Bool :=
  y % 4 = 0 && (y % 100 != 0 || y % 400 = 0)

/-- Length of month `m` (1-12) in year `y`, as used by `datetime`. -/
def daysInMonth (y m : Nat) : Nat :=
  if m = 2 then (if isLeap y then 29 else 28)
  else if m = 4 || m = 6 || m = 9 || m = 11 then 30
  else 31

/-- Cumulative day count before month `m` in a non-leap year. -/
def cumDays (m : Nat) : Nat :=
  match m with
  | 1 => 0 | 2 => 31 | 3 => 59 | 4 => 90 | 5 => 120 | 6 => 151
  | 7 => 181 | 8 => 212 | 9 => 243 | 10 => 273 | 11 => 304 | 12 => 334
  | _ => 0

/-- Model of a Python `datetime.date` value. -/
structure PyDate where
  year : Nat
  month : Nat
  day : Nat
deriving DecidableEq, Repr

/-- Model of `date.toordinal()`: day number in the proleptic Gregorian
calendar with `0001-01-01` mapped to 1. -/
def PyDate.toOrdinal (d : PyDate) : Int :=
  let y := d.year - 1
  (365 * y + y / 4 - y / 100 + y / 400
    + cumDays d.month
    + (if 2 < d.month && isLeap d.year then 1 else 0)
    + d.day : Nat)

/-- Model of `abs((a - b).days)` on two `date` values. -/
def dateDiffDays (a b : PyDate) : Int :=
  (a.toOrdinal - b.toOrdinal).natAbs

/-! ## Enumerations (from `app/schemas/enums.py`) -/

/-- Task processing states (`TaskStatus`). -/
inductive TaskStatus where
  | new | queued_for_processing | processing | failed
  | no_candidates_found | awaiting_review | reviewed
  | auto_confirmed | skipped | knowledge_based
deriving DecidableEq, Repr

/-- Match candidate decision states (`CandidateStatus`). -/
inductive CandidateStatus where
  | suggested | accepted | rejected
deriving DecidableEq, Repr

/-- Project lifecycle states used by the workflow code (`ProjectStatus`);
only the constructors exercised by the embedded operations are listed
together with an opaque-free catch-all for the remaining ones. -/
inductive ProjectStatus where
  | draft | active | pending_search | search_in_progress | search_completed
  | pending_processing | processing | processing_failed | review_ready
  | completed | archived
deriving DecidableEq, Repr

/-! ## Exact rational helpers

Core `Rat.add`/`Rat.mul` do not reduce inside the kernel, so the model
computes with `Rat.divInt`, which does.  The bridge lemmas below relate the
executable forms to ordinary `ℚ` arithmetic for proving. -/

/-- Executable rational addition. -/
def qadd (a b : ℚ) : ℚ :=
  Rat.divInt (a.num * b.den + b.num * a.den) ((a.den : Int) * b.den)

/-- Executable product of an integer and a rational. -/
def qmulInt (s : Int) (w : ℚ) : ℚ :=
  Rat.divInt (s * w.num) w.den

/-- Executable rational division (`a / b`; `0` when `b = 0`, which the
embedded code never hits because it guards on a zero divisor first). -/
def qdiv (a b : ℚ) : ℚ :=
  Rat.divInt (a.num * b.den) ((a.den : Int) * b.num)

theorem qadd_eq (a b : ℚ) : qadd a b = a + b := by
  unfold qadd
  rw [Rat.divInt_eq_div]
  push_cast
  conv_rhs => rw [← Rat.num_div_den a, ← Rat.num_div_den b]
  rw [div_add_div _ _ (by exact_mod_cast a.den_nz) (by exact_mod_cast b.den_nz)]
  ring_nf

theorem qmulInt_eq (s : Int) (w : ℚ) : qmulInt s w = (s : ℚ) * w := by
  unfold qmulInt
  rw [Rat.divInt_eq_div]
  push_cast
  conv_rhs => rw [← Rat.num_div_den w]
  rw [mul_div_assoc]

theorem qdiv_eq (a b : ℚ) : qdiv a b = a / b := by
  unfold qdiv
  rw [Rat.divInt_eq_div]
  push_cast
  rcases eq_or_ne b 0 with hb | hb
  · subst hb; simp
  · conv_rhs => rw [← Rat.num_div_den a, ← Rat.num_div_den b]
    have hbn : (b.num : ℚ) ≠ 0 := by
      exact_mod_cast Rat.num_ne_zero.mpr hb
    have had : ((a.den : ℚ)) ≠ 0 := by exact_mod_cast a.den_nz
    have hbd : ((b.den : ℚ)) ≠ 0 := by exact_mod_cast b.den_nz
    field_simp

/-- Model of Python `round` (round half to even) on an exact rational,
computed purely with integer arithmetic. -/
def rhe (q : ℚ) : Int :=
  if 2 * (q.num - Int.fdiv q.num q.den * (q.den : Int)) < (q.den : Int) then
    Int.fdiv q.num q.den
  else if (q.den : Int) < 2 * (q.num - Int.fdiv q.num q.den * (q.den : Int)) then
    Int.fdiv q.num q.den + 1
  else if Int.fdiv q.num q.den % 2 = 0 then Int.fdiv q.num q.den
  else Int.fdiv q.num q.den + 1

theorem rhe_floor_decomp (q : ℚ) :
    q.num = Int.fdiv q.num q.den * (q.den : Int) +
      (q.num - Int.fdiv q.num q.den * (q.den : Int)) ∧
    0 ≤ q.num - Int.fdiv q.num q.den * (q.den : Int) ∧
    q.num - Int.fdiv q.num q.den * (q.den : Int) < (q.den : Int) := by
  have hden : (0 : Int) < (q.den : Int) := by exact_mod_cast q.pos
  have hmod := Int.fdiv_add_fmod q.num (q.den : Int)
  have hcomm : (q.den : Int) * Int.fdiv q.num (q.den : Int) =
      Int.fdiv q.num q.den * (q.den : Int) := by ring
  have hlow : 0 ≤ Int.fmod q.num (q.den : Int) := by
    rw [Int.fmod_eq_emod q.num (le_of_lt hden)]
    exact Int.emod_nonneg q.num (by omega)
  have hhigh : Int.fmod q.num (q.den : Int) < (q.den : Int) := by
    rw [Int.fmod_eq_emod q.num (le_of_lt hden)]
    exact Int.emod_lt_of_pos q.num hden
  omega

/-- Bounds on the half-to-even rounding: it lands in `[0, hi]` whenever the
input does. -/
theorem rhe_bounds (q : ℚ) (hi : Int) (h0 : 0 ≤ q) (h1 : q ≤ (hi : ℚ)) :
    0 ≤ rhe q ∧ rhe q ≤ hi := by
  have hden : (0 : Int) < (q.den : Int) := by exact_mod_cast q.pos
  have hnum0 : 0 ≤ q.num := Rat.num_nonneg.mpr h0
  have hnumhi : q.num ≤ hi * (q.den : Int) := by
    have := Rat.le_def.mp h1
    simpa using this
  obtain ⟨hdecomp, hr0, hr1⟩ := rhe_floor_decomp q
  have hf0 : 0 ≤ Int.fdiv q.num q.den := by
    rw [Int.fdiv_eq_ediv q.num (le_of_lt hden)]
    exact Int.ediv_nonneg hnum0 (le_of_lt hden)
  have hfhi : Int.fdiv q.num q.den ≤ hi := by
    by_contra hcon
    push_neg at hcon
    have hmul : (hi + 1) * (q.den : Int) ≤ Int.fdiv q.num q.den * (q.den : Int) :=
      mul_le_mul_of_nonneg_right (by omega) (le_of_lt hden)
    have hexp : (hi + 1) * (q.den : Int) = hi * (q.den : Int) + (q.den : Int) := by
      ring
    omega
  unfold rhe
  split
  · exact ⟨hf0, hfhi⟩
  · split
    · rename_i hge hgt
      refine ⟨by omega, ?_⟩
      by_contra hcon
      push_neg at hcon
      have hfe : Int.fdiv q.num q.den = hi := by omega
      have h2 : Int.fdiv q.num q.den * (q.den : Int) = hi * (q.den : Int) := by
        rw [hfe]
      omega
    · split
      · exact ⟨hf0, hfhi⟩
      · rename_i hge hgt hodd
        refine ⟨by omega, ?_⟩
        by_contra hcon
        push_neg at hcon
        have hfe : Int.fdiv q.num q.den = hi := by omega
        have h2 : Int.fdiv q.num q.den * (q.den : Int) = hi * (q.den : Int) := by
          rw [hfe]
        omega

/-! ## Python string helpers

Models of the CPython primitives used by `DateMatcher._parse_date`:
`str.strip()` / `str.lstrip("+")` (ASCII whitespace subset), `str.count`,
slicing, and `int()` (sign, surrounding whitespace, underscores between
digits). -/

/-- ASCII whitespace characters stripped by `str.strip()`. -/
def isPySpace (c : Char) : Bool :=
  c = ' ' || c = '\t' || c = '\n' || c = '\r' || c = '\x0b' || c = '\x0c'

/-- Model of `value.strip()` on a character list. -/
def stripChars (l : List Char) : List Char :=
  ((l.dropWhile isPySpace).reverse.dropWhile isPySpace).reverse

/-- Model of `value.lstrip("+")` (drops every leading plus sign). -/
def lstripPlus (l : List Char) : List Char :=
  l.dropWhile (fun c => c = '+')

/-- Model of `value.count('-')`. -/
def dashCount : List Char → Nat
  | [] => 0
  | c :: r => (if c = '-' then 1 else 0) + dashCount r

/-- ASCII digit test (`\d` in the CPython `_strptime` regexes). -/
def isDig (c : Char) : Bool :=
  48 ≤ c.toNat && c.toNat ≤ 57

/-- Numeric value of an ASCII digit. -/
def dval (c : Char) : Nat :=
  c.toNat - 48

theorem isDig_ne_of (c x : Char) (h : isDig c = true) (hx : isDig x = false) :
    c ≠ x := by
  intro he
  subst he
  rw [h] at hx
  cases hx

/-! ## Model of `datetime.strptime` for the two fixed formats

CPython `_strptime` turns `"%Y-%m-%d"` into the regex
`(?P<Y>\d\d\d\d)-(?P<m>1[0-2]|0[1-9]|[1-9])-(?P<d>3[01]|[12]\d|0[1-9]|[1-9])`
(compiled with `IGNORECASE`), requires the match to consume the entire
string, and then validates the fields through the `datetime` constructor.
The alternative lists below reproduce the regex alternations in order, and
`List.findSome?` reproduces the engine's backtracking, with "rest must be
consumed by the remaining pattern" as the continuation.  For these two
patterns a first-match-then-length-check run of the engine agrees with
that continuation semantics because within each alternation the shorter
alternative can never complete the pattern when a longer one matched
locally (the following literal separator can not be a digit). -/

/-- Regex alternation `1[0-2]|0[1-9]|[1-9]` for `%m`, in order. -/
def monthAlts (l : List Char) : List (Nat × List Char) :=
  (match l with
   | c1 :: c2 :: r =>
     (if c1 = '1' && 48 ≤ c2.toNat && c2.toNat ≤ 50 then [(10 + dval c2, r)] else []) ++
     (if c1 = '0' && 49 ≤ c2.toNat && c2.toNat ≤ 57 then [(dval c2, r)] else [])
   | _ => []) ++
  (match l with
   | c1 :: r => if 49 ≤ c1.toNat && c1.toNat ≤ 57 then [(dval c1, r)] else []
   | [] => [])

/-- Regex alternation `3[01]|[12]\d|0[1-9]|[1-9]` for `%d`, in order. -/
def dayAlts (l : List Char) : List (Nat × List Char) :=
  (match l with
   | c1 :: c2 :: r =>
     (if c1 = '3' && (c2 = '0' || c2 = '1') then [(30 + dval c2, r)] else []) ++
     (if (c1 = '1' || c1 = '2') && isDig c2 then [(10 * dval c1 + dval c2, r)] else []) ++
     (if c1 = '0' && 49 ≤ c2.toNat && c2.toNat ≤ 57 then [(dval c2, r)] else [])
   | _ => []) ++
  (match l with
   | c1 :: r => if 49 ≤ c1.toNat && c1.toNat ≤ 57 then [(dval c1, r)] else []
   | [] => [])

/-- Regex alternation `2[0-3]|[0-1]\d|\d` for `%H`, in order. -/
def hourAlts (l : List Char) : List (Nat × List Char) :=
  (match l with
   | c1 :: c2 :: r =>
     (if c1 = '2' && 48 ≤ c2.toNat && c2.toNat ≤ 51 then [(20 + dval c2, r)] else []) ++
     (if (c1 = '0' || c1 = '1') && isDig c2 then [(10 * dval c1 + dval c2, r)] else [])
   | _ => []) ++
  (match l with
   | c1 :: r => if isDig c1 then [(dval c1, r)] else []
   | [] => [])

/-- Regex alternation `[0-5]\d|\d` for `%M`, in order. -/
def minuteAlts (l : List Char) : List (Nat × List Char) :=
  (match l with
   | c1 :: c2 :: r =>
     if 48 ≤ c1.toNat && c1.toNat ≤ 53 && isDig c2 then [(10 * dval c1 + dval c2, r)] else []
   | _ => []) ++
  (match l with
   | c1 :: r => if isDig c1 then [(dval c1, r)] else []
   | [] => [])

/-- Regex alternation `6[0-1]|[0-5]\d|\d` for `%S`, in order. -/
def secondAlts (l : List Char) : List (Nat × List Char) :=
  (match l with
   | c1 :: c2 :: r =>
     (if c1 = '6' && (c2 = '0' || c2 = '1') then [(60 + dval c2, r)] else []) ++
     (if 48 ≤ c1.toNat && c1.toNat ≤ 53 && isDig c2 then [(10 * dval c1 + dval c2, r)] else [])
   | _ => []) ++
  (match l with
   | c1 :: r => if isDig c1 then [(dval c1, r)] else []
   | [] => [])

/-- Full-string regex match of `%Y-%m-%d`, returning the raw fields. -/
def strptimeYmdRaw (l : List Char) : Option (Nat × Nat × Nat) :=
  match l with
  | c1 :: c2 :: c3 :: c4 :: c5 :: rest =>
    if isDig c1 && isDig c2 && isDig c3 && isDig c4 && c5 = '-' then
      let y := ((dval c1 * 10 + dval c2) * 10 + dval c3) * 10 + dval c4
      (monthAlts rest).findSome? (fun mr =>
        match mr.2 with
        | c6 :: r2 =>
          if c6 = '-' then
            (dayAlts r2).findSome? (fun dr =>
              match dr.2 with
              | [] => some (y, mr.1, dr.1)
              | _ :: _ => none)
          else none
        | [] => none)
    else none
  | _ => none

/-- Validation performed by the `datetime` constructor on the date fields. -/
def validDate (y m d : Nat) : Option PyDate :=
  if 1 ≤ y && y ≤ 9999 && 1 ≤ m && m ≤ 12 && 1 ≤ d && d ≤ daysInMonth y m then
    some ⟨y, m, d⟩
  else none

/-- Model of `datetime.strptime(s, "%Y-%m-%d").date()`, `none` on
`ValueError`. -/
def strptimeYmd (l : List Char) : Option PyDate :=
  (strptimeYmdRaw l).bind (fun t => validDate t.1 t.2.1 t.2.2)

/-- Full-string regex match of `%Y-%m-%dT%H:%M:%SZ` (the literals `T` and
`Z` are case-insensitive in CPython), returning the raw fields. -/
def strptimeYmdTRaw (l : List Char) : Option (Nat × Nat × Nat × Nat × Nat × Nat) :=
  match l with
  | c1 :: c2 :: c3 :: c4 :: c5 :: rest =>
    if isDig c1 && isDig c2 && isDig c3 && isDig c4 && c5 = '-' then
      let y := ((dval c1 * 10 + dval c2) * 10 + dval c3) * 10 + dval c4
      (monthAlts rest).findSome? (fun mr =>
        match mr.2 with
        | c6 :: r2 =>
          if c6 = '-' then
            (dayAlts r2).findSome? (fun dr =>
              match dr.2 with
              | c7 :: r3 =>
                if c7 = 'T' || c7 = 't' then
                  (hourAlts r3).findSome? (fun hr =>
                    match hr.2 with
                    | c8 :: r4 =>
                      if c8 = ':' then
                        (minuteAlts r4).findSome? (fun nr =>
                          match nr.2 with
                          | c9 :: r5 =>
                            if c9 = ':' then
                              (secondAlts r5).findSome? (fun sr =>
                                match sr.2 with
                                | [c10] =>
                                  if c10 = 'Z' || c10 = 'z' then
                                    some (y, mr.1, dr.1, hr.1, nr.1, sr.1)
                                  else none
                                | _ => none)
                            else none
                          | [] => none)
                      else none
                    | [] => none)
                else none
              | [] => none)
          else none
        | [] => none)
    else none
  | _ => none

/-- Model of `datetime.strptime(s, "%Y-%m-%dT%H:%M:%SZ").date()`, `none` on
`ValueError` (the regex admits leap seconds 60-61, which the `datetime`
constructor then rejects). -/
def strptimeYmdT (l : List Char) : Option PyDate :=
  (strptimeYmdTRaw l).bind (fun t =>
    if t.2.2.2.1 ≤ 23 && t.2.2.2.2.1 ≤ 59 && t.2.2.2.2.2 ≤ 59 then
      validDate t.1 t.2.1 t.2.2.1
    else none)

/-- The format loop of `_parse_date`: each format is attempted on the
prefix `value[:len(fmt.replace('%', '')) + value.count('-')]` (lengths 5
and 12 for the two formats). -/
def tryFormats (l : List Char) : Option PyDate :=
  match strptimeYmd (l.take (5 + dashCount l)) with
  | some d => some d
  | none => strptimeYmdT (l.take (12 + dashCount l))

/-- The guard `len(date_part) == 10 and date_part[4] == "-" and
date_part[7] == "-"` on `date_part = value[:10]`. -/
def shape10 (l : List Char) : Bool :=
  match l.take 10 with
  | [_, _, _, _, c4, _, _, c7, _, _] => c4 = '-' && c7 = '-'
  | _ => false

/-- Digit scanner of Python `int()` after the optional sign: digits with
single underscores allowed between digits. -/
def pyIntGo (l : List Char) (acc : Nat) : Option Nat :=
  match l with
  | [] => some acc
  | c :: r =>
    if isDig c then pyIntGo r (acc * 10 + dval c)
    else if c = '_' then
      match r with
      | c2 :: r2 => if isDig c2 then pyIntGo r2 (acc * 10 + dval c2) else none
      | [] => none
    else none

/-- Nonempty digit sequence for Python `int()`. -/
def pyIntNat (l : List Char) : Option Nat :=
  match l with
  | c :: r => if isDig c then pyIntGo r (dval c) else none
  | [] => none

/-- Model of Python `int(s)`: strips surrounding whitespace, then an
optional sign directly followed by the digit sequence. -/
def pyInt (l : List Char) : Option Int :=
  match stripChars l with
  | [] => none
  | c :: r =>
    if c = '+' then (pyIntNat r).map (fun n => (n : Int))
    else if c = '-' then (pyIntNat r).map (fun n => -(n : Int))
    else (pyIntNat (c :: r)).map (fun n => (n : Int))

/-- Year fallback of `_parse_date`: `int(value[:4])` accepted as
`date(year, 1, 1)` when `1 <= year <= 9999`. -/
def yearFallback (l : List Char) : Option PyDate :=
  match pyInt (l.take 4) with
  | some y => if 1 ≤ y && y ≤ 9999 then some ⟨y.toNat, 1, 1⟩ else none
  | none => none

/-- Body of `DateMatcher._parse_date` on an already stripped character
list: the format loop, then the first-10-characters rule, then the year
fallback. -/
def parseCore (l : List Char) : Option PyDate :=
  match tryFormats l with
  | some d => some d
  | none =>
    match (if shape10 l then strptimeYmd (l.take 10) else none) with
    | some d => some d
    | none => yearFallback l

/-- Model of `DateMatcher._parse_date` on a string input. -/
def pyParseDateStr (s : String) : Option PyDate :=
  parseCore (lstripPlus (stripChars s.data))

/-- Date argument of `DateMatcher.compare`: a structured `date` value or a
raw string (a `datetime` input reduces to its `.date()` part). -/
inductive DateVal where
  | dt (d : PyDate)
  | str (s : String)
deriving DecidableEq, Repr

/-- Model of `_parse_date` on a full `date | str` input. -/
def parseDateVal : DateVal → Option PyDate
  | .dt d => some d
  | .str s => pyParseDateStr s

/-- Python truthiness of a `date | str` value (`date` objects are always
truthy, a string is truthy when nonempty). -/
def truthyDateVal : DateVal → Bool
  | .dt _ => true
  | .str s => s.data ≠ []

/-! ## The specification's reading of the parse rules (for claim C9)

`claimParseCore` renders the spec sentence "try `YYYY-MM-DD`; try
`YYYY-MM-DDTHH:MM:SSZ` (take date part only); try taking the first 10
characters as `YYYY-MM-DD` if they match that shape; finally fall back to
interpreting the first 4 characters as a year" literally, reusing the same
sub-parsers as the source embedding.  `amendedParseCore` is the same
pipeline with the implementation's dash-count-dependent prefix attempts
inserted before the last two rules. -/

/-- Syntactic shape `YYYY-MM-DD`: ten characters, digits with dashes at
positions 4 and 7. -/
def exactYmdShape (l : List Char) : Bool :=
  match l with
  | [a, b, c, d, e, f, g, h, i, j] =>
    isDig a && isDig b && isDig c && isDig d && e = '-' &&
    isDig f && isDig g && h = '-' && isDig i && isDig j
  | _ => false

/-- Syntactic shape `YYYY-MM-DDTHH:MM:SSZ`: twenty characters, digits with
dashes, colons, `T` and `Z` at the fixed positions. -/
def exactYmdTShape (l : List Char) : Bool :=
  match l with
  | [a, b, c, d, e, f, g, h, i, j, t1, k, m1, o1, n, o, o2, p, q1, z1] =>
    isDig a && isDig b && isDig c && isDig d && e = '-' &&
    isDig f && isDig g && h = '-' && isDig i && isDig j &&
    t1 = 'T' && isDig k && isDig m1 && o1 = ':' && isDig n && isDig o &&
    o2 = ':' && isDig p && isDig q1 && z1 = 'Z'
  | _ => false

/-- Parse pipeline exactly as the specification states it. -/
def claimParseCore (l : List Char) : Option PyDate :=
  match (if exactYmdShape l then strptimeYmd l else none) with
  | some d => some d
  | none =>
    match (if exactYmdTShape l then strptimeYmd (l.take 10) else none) with
    | some d => some d
    | none =>
      match (if shape10 l then strptimeYmd (l.take 10) else none) with
      | some d => some d
      | none => yearFallback l

/-- Spec-side parser for claim C9 (same stripping as the source). -/
def claimParseDate (s : String) : Option PyDate :=
  claimParseCore (lstripPlus (stripChars s.data))

/-- Amended parse pipeline: the spec's rules with the implementation's
prefix format attempts inserted after the two exact shapes. -/
def amendedParseCore (l : List Char) : Option PyDate :=
  match (if exactYmdShape l then strptimeYmd l else none) with
  | some d => some d
  | none =>
    match (if exactYmdTShape l then strptimeYmd (l.take 10) else none) with
    | some d => some d
    | none =>
      match tryFormats l with
      | some d => some d
      | none =>
        match (if shape10 l then strptimeYmd (l.take 10) else none) with
        | some d => some d
        | none => yearFallback l

/-- Amended spec-side parser for claim C9. -/
def amendedParseDate (s : String) : Option PyDate :=
  amendedParseCore (lstripPlus (stripChars s.data))

/-! ## Matching settings (`MatchingSettings` in `app/core/config.py`) -/

/-- Matching algorithm settings; weights are Python floats modelled as
exact rationals, every other field a Python int. -/
structure MatchingSettings where
  auto_accept_threshold : Int
  high_confidence_threshold : Int
  low_confidence_threshold : Int
  name_weight : ℚ
  date_weight : ℚ
  property_weight : ℚ
  name_exact_score : Int
  name_fuzzy_threshold : Int
  date_exact_score : Int
  date_year_only_score : Int
  date_tolerance_days : Int
deriving DecidableEq, Repr

/-- Default settings from `app/core/config.py` (the float literals `0.5`,
`0.3`, `0.2` modelled as the exact rationals they denote). -/
def defaultMatching : MatchingSettings where
  auto_accept_threshold := 95
  high_confidence_threshold := 80
  low_confidence_threshold := 50
  name_weight := mkRat 1 2
  date_weight := mkRat 3 10
  property_weight := mkRat 1 5
  name_exact_score := 100
  name_fuzzy_threshold := 70
  date_exact_score := 100
  date_year_only_score := 80
  date_tolerance_days := 3

/-! ## MatchScore / CompositeScore value objects -/

/-- Kinds of matches (`MatchType`). -/
inductive MatchType where
  | name | date | property
deriving DecidableEq, Repr

/-- Target string a name score was computed against (`"label"` or
`"alias:<value>"`). -/
inductive NameTarget where
  | label
  | aliasNamed (a : String)
deriving DecidableEq, Repr

/-- Structured rendering of the `details` dictionaries attached to a
`MatchScore`. -/
inductive ScoreDetails where
  | missingName
  | nameExactLabel
  | nameExactAlias (a : String)
  | nameFuzzy (against : NameTarget) (fuzzyScore : Int)
  | missingDate
  | invalidDateFormat
  | dateExact
  | dateClose (diffDays : Int)
  | dateYearOnly (y : Nat)
  | dateNone (diffYears : Int)
deriving DecidableEq, Repr

/-- Result of a single match comparison (`MatchScore`). -/
structure MatchScore where
  match_type : MatchType
  score : Int
  weight : ℚ
  details : ScoreDetails
deriving DecidableEq, Repr

/-- Confidence tier of a composite result. -/
inductive Confidence where
  | high | medium | low | noneConf
deriving DecidableEq, Repr

/-- Result of composite matching (`CompositeScore`). -/
structure CompositeScore where
  total_score : Int
  scores : List MatchScore
  confidence : Confidence
  matched_fields : List String
deriving DecidableEq, Repr

/-! ## NameMatcher

The three rapidfuzz similarity measures are external library code; the
embedding takes their combined value `_best_fuzzy_score` as a function
parameter `fuzz3` (modelled from the spec: the best of full-string ratio,
token-set ratio and partial-substring ratio, an integer in `[0, 100]`). -/

/-- Model of `NameMatcher._normalize` (`strip().lower()`, ASCII subset). -/
def normalizeName (s : String) : String :=
  String.mk ((stripChars s.data).map Char.toLower)

/-- Python truthiness of an optional string. -/
def truthyStrOpt : Option String → Bool
  | some s => s.data ≠ []
  | none => false

/-- Alias loop of `NameMatcher.compare`: exact alias matches return
immediately, otherwise the best fuzzy score and its source are tracked. -/
def aliasLoop (st : MatchingSettings) (fuzz3 : String → String → Int)
    (en : String) : List String → Int → NameTarget → MatchScore
  | [], best, bm =>
    ⟨.name, best, st.name_weight, .nameFuzzy bm best⟩
  | a :: rest, best, bm =>
    let an := normalizeName a
    if en = an then
      ⟨.name, st.name_exact_score, st.name_weight, .nameExactAlias a⟩
    else if best < fuzz3 en an then
      aliasLoop st fuzz3 en rest (fuzz3 en an) (.aliasNamed a)
    else
      aliasLoop st fuzz3 en rest best bm

/-- Model of `NameMatcher.compare`. -/
def nameCompare (st : MatchingSettings) (fuzz3 : String → String → Int)
    (entry_name wikidata_label : String) (aliases : Option (List String)) :
    MatchScore :=
  if entry_name.data = [] || wikidata_label.data = [] then
    ⟨.name, 0, st.name_weight, .missingName⟩
  else if normalizeName entry_name = normalizeName wikidata_label then
    ⟨.name, st.name_exact_score, st.name_weight, .nameExactLabel⟩
  else
    aliasLoop st fuzz3 (normalizeName entry_name) (aliases.getD [])
      (fuzz3 (normalizeName entry_name) (normalizeName wikidata_label)) .label

/-! ## DateMatcher -/

/-- Comparison phase of `DateMatcher.compare` after both sides have been
through `_parse_date`. -/
def dateCompareParsed (st : MatchingSettings) :
    Option PyDate → Option PyDate → MatchScore
  | some p, some q =>
    if p = q then
      ⟨.date, st.date_exact_score, st.date_weight, .dateExact⟩
    else if dateDiffDays p q ≤ st.date_tolerance_days then
      ⟨.date, max (st.date_exact_score - dateDiffDays p q * 5)
        st.date_year_only_score, st.date_weight,
        .dateClose (dateDiffDays p q)⟩
    else if p.year = q.year then
      ⟨.date, st.date_year_only_score, st.date_weight, .dateYearOnly p.year⟩
    else
      ⟨.date, 0, st.date_weight, .dateNone ((p.year : Int) - q.year).natAbs⟩
  | _, _ => ⟨.date, 0, st.date_weight, .invalidDateFormat⟩

/-- Model of `DateMatcher.compare`. -/
def dateCompare (st : MatchingSettings) (a b : Option DateVal) : MatchScore :=
  match a, b with
  | some x, some y => dateCompareParsed st (parseDateVal x) (parseDateVal y)
  | _, _ => ⟨.date, 0, st.date_weight, .missingDate⟩

/-! ## ScoreCalculator -/

/-- Entry-side input dictionary of `calculate` (absent keys are `none`). -/
structure EntryData where
  name : Option String
  display_name : Option String
  dob : Option DateVal
  date_of_birth : Option DateVal
deriving DecidableEq, Repr

/-- Innermost `value` of a claim: a dictionary with an optional `time`
key, or a non-dictionary value. -/
inductive WDValue where
  | obj (time : Option String)
  | nonObj
deriving DecidableEq, Repr

/-- The `datavalue` dictionary of a claim's `mainsnak`. -/
structure WDDataValue where
  value : Option WDValue
deriving DecidableEq, Repr

/-- The `mainsnak` dictionary of a claim. -/
structure WDSnak where
  datavalue : Option WDDataValue
deriving DecidableEq, Repr

/-- One claim entry of a Wikidata entity. -/
structure WDClaim where
  mainsnak : Option WDSnak
deriving DecidableEq, Repr

/-- Target-entity input dictionary of `calculate`. -/
structure WikidataEntity where
  label : Option String
  aliases : Option (List String)
  claims : List (String × List WDClaim)
deriving DecidableEq, Repr

/-- Model of `claims.get(property_id, [])`. -/
def claimsGet (l : List (String × List WDClaim)) (k : String) : List WDClaim :=
  match l.find? (fun p => p.1 = k) with
  | some p => p.2
  | none => []

/-- Nested `.get` chain `mainsnak -> datavalue -> value -> time`, where
each absent level degrades to an empty dictionary and a non-dictionary
`value` yields `None`. -/
def extractTime (c : WDClaim) : Option String :=
  match c.mainsnak with
  | none => none
  | some sn =>
    match sn.datavalue with
    | none => none
    | some dv =>
      match dv.value with
      | none => none
      | some (.obj t) => t
      | some .nonObj => none

/-- Model of `ScoreCalculator._extract_wikidata_date`. -/
def extractWikidataDate (e : WikidataEntity) (pid : String) : Option String :=
  match claimsGet e.claims pid with
  | [] => none
  | c :: _ => extractTime c

/-- Python `a or b` on optional strings (falsy = absent or empty). -/
def pyOrStr (a b : Option String) : Option String :=
  match a with
  | some s => if s.data ≠ [] then some s else b
  | none => b

/-- Python `a or b` on optional date values. -/
def pyOrDV (a b : Option DateVal) : Option DateVal :=
  match a with
  | some v => if truthyDateVal v then some v else b
  | none => b

/-- Python truthiness of an optional date value. -/
def truthyDVOpt : Option DateVal → Bool
  | some v => truthyDateVal v
  | none => false

/-- Sum of the weights of a score list (`sum(s.weight for s in scores)`). -/
def sumW (l : List MatchScore) : ℚ :=
  l.foldl (fun acc s => qadd acc s.weight) 0

/-- Weighted score sum (`sum(s.score * s.weight for s in scores)`). -/
def sumSW (l : List MatchScore) : ℚ :=
  l.foldl (fun acc s => qadd acc (qmulInt s.score s.weight)) 0

/-- Model of `ScoreCalculator._determine_confidence`. -/
def determineConfidence (st : MatchingSettings) (score : Int)
    (mf : List String) : Confidence :=
  if st.auto_accept_threshold ≤ score then .high
  else if st.high_confidence_threshold ≤ score then
    (if 2 ≤ mf.length then .high else .medium)
  else if st.low_confidence_threshold ≤ score then .medium
  else .low

/-- Name available for matching:
`entry_data.get("name") or entry_data.get("display_name")`. -/
def entryNameOf (entry : EntryData) : Option String :=
  pyOrStr entry.name entry.display_name

/-- Birth date available for matching:
`entry_data.get("dob") or entry_data.get("date_of_birth")`. -/
def entryDobOf (entry : EntryData) : Option DateVal :=
  pyOrDV entry.dob entry.date_of_birth

/-- Name `MatchScore` produced by `calculate` when both sides have a
truthy name. -/
def nameSOf (st : MatchingSettings) (fuzz3 : String → String → Int)
    (entry : EntryData) (entity : WikidataEntity) : Option MatchScore :=
  if truthyStrOpt (entryNameOf entry) && truthyStrOpt entity.label then
    some (nameCompare st fuzz3 ((entryNameOf entry).getD "")
      (entity.label.getD "") entity.aliases)
  else none

/-- Date `MatchScore` produced by `calculate` when either side has a
truthy birth date. -/
def dateSOf (st : MatchingSettings) (entry : EntryData)
    (entity : WikidataEntity) : Option MatchScore :=
  if truthyDVOpt (entryDobOf entry) ||
      truthyStrOpt (extractWikidataDate entity "P569") then
    some (dateCompare st (entryDobOf entry)
      ((extractWikidataDate entity "P569").map DateVal.str))
  else none

/-- Zero-or-one element list of an optional score. -/
def optList : Option MatchScore → List MatchScore
  | some s => [s]
  | none => []

/-- The `scores` list accumulated by `calculate`. -/
def scoresOf (st : MatchingSettings) (fuzz3 : String → String → Int)
    (entry : EntryData) (entity : WikidataEntity) : List MatchScore :=
  optList (nameSOf st fuzz3 entry entity) ++ optList (dateSOf st entry entity)

/-- The `matched_fields` list accumulated by `calculate`. -/
def matchedOf (st : MatchingSettings) (fuzz3 : String → String → Int)
    (entry : EntryData) (entity : WikidataEntity) : List String :=
  (match nameSOf st fuzz3 entry entity with
   | some s => if st.name_fuzzy_threshold ≤ s.score then ["name"] else []
   | none => []) ++
  (match dateSOf st entry entity with
   | some s => if 0 < s.score then ["dob"] else []
   | none => [])

/-- The weighted average computed by `calculate` (0 on a zero total
weight). -/
def weightedAvg (l : List MatchScore) : ℚ :=
  if sumW l = 0 then 0 else qdiv (sumSW l) (sumW l)

/-- Model of `ScoreCalculator.calculate`. -/
def calculate (st : MatchingSettings) (fuzz3 : String → String → Int)
    (entry : EntryData) (entity : WikidataEntity) : CompositeScore :=
  if scoresOf st fuzz3 entry entity = [] then
    ⟨0, scoresOf st fuzz3 entry entity, .noneConf,
     matchedOf st fuzz3 entry entity⟩
  else
    ⟨rhe (weightedAvg (scoresOf st fuzz3 entry entity)),
     scoresOf st fuzz3 entry entity,
     determineConfidence st (rhe (weightedAvg (scoresOf st fuzz3 entry entity)))
       (matchedOf st fuzz3 entry entity),
     matchedOf st fuzz3 entry entity⟩

/-! ## Workflow state model

Database rows touched by `ProjectService` and `CandidateService`,
embedded as explicit lists; the service methods become pure functions on
a `DB` value.  Timestamps are abstract `Nat` tokens, fresh primary keys
come from an explicit `nextId` counter, and every transaction is one
function producing the post-commit state. -/

/-- Typed rendering of the service-layer error taxonomy (`ValidationError`
with its distinct messages). -/
inductive VErr where
  | noSelection
  | noEntries
  | invalidCriteria
  | illegalTransition (s : CandidateStatus)
deriving DecidableEq, Repr

/-- A `DatasetEntry` row (fields used by the embedded operations). -/
structure EntryRow where
  id : Nat
  uuid : Nat
  dataset_id : Nat
  deleted : Bool
deriving DecidableEq, Repr

/-- A `Task` row (fields used by the embedded operations). -/
structure TaskRow where
  id : Nat
  uuid : Nat
  project_id : Nat
  dataset_entry_id : Nat
  status : TaskStatus
  accepted_wikidata_id : Option String
  accepted_candidate_id : Option Nat
  error_message : Option String
  candidate_count : Nat
  highest_score : Option Int
  reviewed_at : Option Nat
  deleted : Bool
deriving DecidableEq, Repr

/-- A `MatchCandidate` row (fields used by the embedded operations). -/
structure CandRow where
  id : Nat
  uuid : Nat
  task_id : Nat
  wikidata_id : String
  score : Int
  status : CandidateStatus
  reviewed_at : Option Nat
  deleted : Bool
deriving DecidableEq, Repr

/-- A `Project` row (fields used by the embedded operations). -/
structure ProjectRow where
  id : Nat
  dataset_id : Nat
  status : ProjectStatus
deriving DecidableEq, Repr

/-- Database state: the three row tables and a fresh-key counter. -/
structure DB where
  entries : List EntryRow
  tasks : List TaskRow
  cands : List CandRow
  nextId : Nat
deriving DecidableEq, Repr

/-- Python truthiness of an optional id list. -/
def truthyListOpt : Option (List Nat) → Bool
  | some l => l ≠ []
  | none => false

/-! ### `ProjectService.start_project` -/

/-- Task row inserted by the bulk insert of `start_project` (`status=NEW`,
`candidate_count=0`, everything else at its column default). -/
def mkNewTask (pid eid tid : Nat) : TaskRow :=
  ⟨tid, tid, pid, eid, .new, none, none, none, 0, none, none, false⟩

/-- Entry-id stream of `start_project`: all live entries of the project's
dataset, optionally restricted to the given entry uuids. -/
def selectedEntryIds (db : DB) (p : ProjectRow) (entry_uuids : Option (List Nat))
    (all_entries : Bool) : List Nat :=
  if all_entries then
    (db.entries.filter (fun e => e.dataset_id = p.dataset_id && !e.deleted)).map (·.id)
  else
    (db.entries.filter (fun e =>
      (entry_uuids.getD []).contains e.uuid && e.dataset_id = p.dataset_id &&
        !e.deleted)).map (·.id)

/-- Entry ids that already have a live task in the project. -/
def existingEntryIds (db : DB) (p : ProjectRow) : List Nat :=
  (db.tasks.filter (fun t => t.project_id = p.id && !t.deleted)).map
    (·.dataset_entry_id)

/-- New task rows for the given entry ids, with sequential fresh keys. -/
def mkTasks (pid startId : Nat) : List Nat → List TaskRow
  | [] => []
  | e :: r => mkNewTask pid e startId :: mkTasks pid (startId + 1) r

/-- Selected entry ids that do not yet have a task in the project (the
rows the batched insert will create; `entry_id not in existing_entry_ids`). -/
def toCreateOf (db : DB) (p : ProjectRow) (entry_uuids : Option (List Nat))
    (all_entries : Bool) : List Nat :=
  (selectedEntryIds db p entry_uuids all_entries).filter
    (fun i => !decide (i ∈ existingEntryIds db p))

/-- Post-commit database state of a successful `start_project` run. -/
def dbAfterStart (db : DB) (p : ProjectRow) (entry_uuids : Option (List Nat))
    (all_entries : Bool) : DB :=
  {db with
    tasks := db.tasks ++
      mkTasks p.id db.nextId (toCreateOf db p entry_uuids all_entries)
    nextId := db.nextId + (toCreateOf db p entry_uuids all_entries).length}

/-- Model of `ProjectService.start_project`.  Chunked flushing of the
insert batches only groups the row inserts and does not change the final
state, so the batches are inserted in one step here. -/
def startProject (db : DB) (p : ProjectRow) (entry_uuids : Option (List Nat))
    (all_entries : Bool) : Except VErr (DB × ProjectRow × Nat) :=
  if !truthyListOpt entry_uuids && !all_entries then .error .noSelection
  else if selectedEntryIds db p entry_uuids all_entries = [] then
    .error .noEntries
  else
    .ok (dbAfterStart db p entry_uuids all_entries,
         {p with status := .pending_search},
         (toCreateOf db p entry_uuids all_entries).length)

/-! ### `ProjectService.rerun_tasks` -/

/-- The bulk `UPDATE ... SET` of `rerun_tasks`. -/
def resetTask (t : TaskRow) : TaskRow :=
  {t with
    status := .new
    accepted_wikidata_id := none
    accepted_candidate_id := none
    error_message := none}

/-- One bulk update: reset every task matching `cond`, returning the new
state and the statement's row count. -/
def doReset (db : DB) (cond : TaskRow → Bool) : DB × Nat :=
  ({db with tasks := db.tasks.map (fun t => if cond t then resetTask t else t)},
   db.tasks.countP cond)

/-- Model of `ProjectService.rerun_tasks`. -/
def rerunTasks (db : DB) (p : ProjectRow) (criteria : Option String)
    (task_uuids : Option (List Nat)) : Except VErr (DB × Nat) :=
  if !truthyStrOpt criteria && !truthyListOpt task_uuids then .error .noSelection
  else if truthyListOpt task_uuids then
    .ok (doReset db (fun t => t.project_id = p.id && !t.deleted &&
      (task_uuids.getD []).contains t.uuid))
  else if criteria = some "failed" then
    .ok (doReset db (fun t => t.project_id = p.id && !t.deleted &&
      t.status = TaskStatus.failed))
  else if criteria = some "no_candidates" then
    .ok (doReset db (fun t => t.project_id = p.id && !t.deleted &&
      t.status = TaskStatus.no_candidates_found))
  else if criteria = some "no_accepted" then
    .ok (doReset db (fun t => t.project_id = p.id && !t.deleted &&
      t.accepted_wikidata_id = none &&
      (t.status = TaskStatus.awaiting_review || t.status = TaskStatus.reviewed)))
  else .error .invalidCriteria

/-! ### `ProjectService.get_stats` (candidate aggregate) -/

/-- Ids of the project's live tasks (the scalar subquery of the candidate
aggregate). -/
def projectTaskIds (db : DB) (p : ProjectRow) : List Nat :=
  (db.tasks.filter (fun t => t.project_id = p.id && !t.deleted)).map (·.id)

/-- Live candidates of the project's live tasks. -/
def statsCands (db : DB) (p : ProjectRow) : List CandRow :=
  db.cands.filter (fun c => (projectTaskIds db p).contains c.task_id && !c.deleted)

/-- Scores of the accepted candidates (the `CASE` filter of the `AVG`). -/
def acceptedScores (db : DB) (p : ProjectRow) : List Int :=
  (statsCands db p).filterMap (fun c =>
    if c.status = CandidateStatus.accepted then some c.score else none)

/-- Number of accepted candidates in the aggregate. -/
def acceptedCount (db : DB) (p : ProjectRow) : Nat :=
  (acceptedScores db p).length

/-- SQL `AVG` over the accepted scores: `NULL` when no row matched. -/
def avgScoreSql (db : DB) (p : ProjectRow) : Option ℚ :=
  if acceptedScores db p = [] then none
  else some (Rat.divInt ((acceptedScores db p).foldl (· + ·) 0)
    ((acceptedScores db p).length : Int))

/-- Rounding to one decimal (Python `round(x, 1)`, half to even). -/
def round1 (q : ℚ) : ℚ :=
  Rat.divInt (rhe (Rat.divInt (10 * q.num) (q.den : Int))) 10

/-- The `avg_score` field produced by `get_stats`:
`round(candidate_row.avg_score, 1) if candidate_row.avg_score else None`
(a Python truthiness test, so a zero average also yields `None`). -/
def statsAvgScore (db : DB) (p : ProjectRow) : Option ℚ :=
  match avgScoreSql db p with
  | none => none
  | some a => if a = 0 then none else some (round1 a)

/-! ### `CandidateService.accept_candidate` / `reject_candidate` -/

/-- Model of `CandidateService.accept_candidate`: one transaction updating
the candidate and its task together. -/
def acceptCandidate (now : Nat) (c : CandRow) (t : TaskRow) :
    Except VErr (CandRow × TaskRow) :=
  if c.status ≠ CandidateStatus.suggested then .error (.illegalTransition c.status)
  else
    .ok ({c with
            status := .accepted
            reviewed_at := some now},
         {t with
            status := .reviewed
            accepted_wikidata_id := some c.wikidata_id
            accepted_candidate_id := some c.id
            reviewed_at := some now})

/-- Model of `CandidateService.reject_candidate`. -/
def rejectCandidate (now : Nat) (c : CandRow) : Except VErr CandRow :=
  if c.status ≠ CandidateStatus.suggested then .error (.illegalTransition c.status)
  else .ok {c with status := .rejected, reviewed_at := some now}

/-! ### Candidate creation and `_update_task_stats` -/

/-- Live candidates of one task (the filters of both aggregate queries in
`_update_task_stats`). -/
def liveCandsFor (db : DB) (taskId : Nat) : List CandRow :=
  db.cands.filter (fun c => c.task_id = taskId && !c.deleted)

/-- SQL `MAX(score)` over a candidate list, `NULL` when empty. -/
def maxScore (l : List CandRow) : Option Int :=
  (l.map (·.score)).max?

/-- Model of `CandidateService._update_task_stats`: recompute and persist
`candidate_count` and `highest_score` of the task from the live candidate
set. -/
def updateTaskStats (db : DB) (taskId : Nat) : DB :=
  {db with tasks := db.tasks.map (fun t =>
    if t.id = taskId then
      {t with
        candidate_count := (liveCandsFor db taskId).length
        highest_score := maxScore (liveCandsFor db taskId)}
    else t)}

/-- Freshly inserted candidate row (`status` defaults to `suggested`). -/
def mkCand (cid tid : Nat) (wid : String) (sc : Int) : CandRow :=
  ⟨cid, cid, tid, wid, sc, .suggested, none, false⟩

/-- Row inserts of a (single or bulk) candidate creation. -/
def insertCands (db : DB) (tid : Nat) : List (String × Int) → DB
  | [] => db
  | (w, s) :: r =>
    insertCands {db with
      cands := db.cands ++ [mkCand db.nextId tid w s]
      nextId := db.nextId + 1} tid r

/-- Candidate-creating operations of `CandidateService`
(`create_for_task` and `create_bulk`), both followed by
`_update_task_stats`. -/
inductive CandOp where
  | createOne (taskId : Nat) (wid : String) (score : Int)
  | createBulk (taskId : Nat) (rows : List (String × Int))

/-- Model of one candidate-creating service call. -/
def applyCandOp (db : DB) : CandOp → DB
  | .createOne tid w s => updateTaskStats (insertCands db tid [(w, s)]) tid
  | .createBulk tid rows => updateTaskStats (insertCands db tid rows) tid

/-- Denormalization invariant: every task's `candidate_count` and
`highest_score` agree with its live candidate set. -/
def taskStatsOk (db : DB) : Prop :=
  ∀ t ∈ db.tasks, t.candidate_count = (liveCandsFor db t.id).length ∧
    t.highest_score = maxScore (liveCandsFor db t.id)

/-! ## Claim C2: accept / reject candidate transitions -/

/-- C2: `acceptCandidate` errors exactly when the candidate is not
`suggested` (so a second accept of an accepted candidate errors); on a
`suggested` candidate it atomically sets the candidate to
`accepted`/stamped and the task to `reviewed` with the accepted pointers
and stamp, changing nothing else; `rejectCandidate` has the same
precondition and on success only sets `rejected` and the stamp. -/
theorem C2_accept_reject_candidate (now : Nat) (c : CandRow) (t : TaskRow) :
    ((∃ e, acceptCandidate now c t = .error e) ↔ c.status ≠ .suggested) ∧
    ((∃ e, rejectCandidate now c = .error e) ↔ c.status ≠ .suggested) ∧
    (∀ c2 t2, acceptCandidate now c t = .ok (c2, t2) →
      c2.status = .accepted ∧ c2.reviewed_at = some now ∧
      c2.id = c.id ∧ c2.uuid = c.uuid ∧ c2.task_id = c.task_id ∧
      c2.wikidata_id = c.wikidata_id ∧ c2.score = c.score ∧
      c2.deleted = c.deleted ∧
      t2.status = .reviewed ∧ t2.accepted_wikidata_id = some c.wikidata_id ∧
      t2.accepted_candidate_id = some c.id ∧ t2.reviewed_at = some now ∧
      t2.id = t.id ∧ t2.uuid = t.uuid ∧ t2.project_id = t.project_id ∧
      t2.dataset_entry_id = t.dataset_entry_id ∧
      t2.error_message = t.error_message ∧
      t2.candidate_count = t.candidate_count ∧
      t2.highest_score = t.highest_score ∧ t2.deleted = t.deleted ∧
      (∃ e, acceptCandidate now c2 t2 = .error e)) ∧
    (∀ c2, rejectCandidate now c = .ok c2 →
      c2.status = .rejected ∧ c2.reviewed_at = some now ∧
      c2.id = c.id ∧ c2.uuid = c.uuid ∧ c2.task_id = c.task_id ∧
      c2.wikidata_id = c.wikidata_id ∧ c2.score = c.score ∧
      c2.deleted = c.deleted) := by
  by_cases h : c.status = CandidateStatus.suggested
  · refine ⟨?_, ?_, ?_, ?_⟩
    · simp [acceptCandidate, h]
    · simp [rejectCandidate, h]
    · intro c2 t2 hok
      rw [acceptCandidate, if_neg (by simp [h])] at hok
      obtain ⟨hc2, ht2⟩ : _ ∧ _ := by simpa [Prod.ext_iff] using hok
      subst hc2
      subst ht2
      refine ⟨rfl, rfl, rfl, rfl, rfl, rfl, rfl, rfl, rfl, rfl, rfl, rfl,
        rfl, rfl, rfl, rfl, rfl, rfl, rfl, rfl, ?_⟩
      exact ⟨_, by rw [acceptCandidate, if_pos (by simp)]⟩
    · intro c2 hok
      rw [rejectCandidate, if_neg (by simp [h])] at hok
      obtain hc2 := by simpa using hok
      subst hc2
      exact ⟨rfl, rfl, rfl, rfl, rfl, rfl, rfl, rfl⟩
  · refine ⟨?_, ?_, ?_, ?_⟩
    · simp [acceptCandidate, h]
    · simp [rejectCandidate, h]
    · intro c2 t2 hok
      rw [acceptCandidate, if_pos (by simp [h])] at hok
      exact Except.noConfusion hok
    · intro c2 hok
      rw [rejectCandidate, if_pos (by simp [h])] at hok
      exact Except.noConfusion hok

/-- Concrete candidate for the C2 witness. -/
def candW : CandRow := ⟨1, 1, 2, "Q42", 95, .suggested, none, false⟩

/-- Concrete task for the C2 witness. -/
def taskW : TaskRow :=
  ⟨2, 2, 3, 4, .awaiting_review, none, none, none, 1, some 95, none, false⟩

/-- Witness for C2 at a concrete already-accepted candidate. -/
theorem C2_accept_reject_candidate_witness :
    ∃ e, acceptCandidate 5 {candW with status := .accepted} taskW =
      .error e :=
  (C2_accept_reject_candidate 5 {candW with status := .accepted} taskW).1.mpr
    (by decide)

/-! ## Claim C6: stats average of accepted candidates -/

/-- Database for the C6 failing input: one live task in project 1 holding
one accepted candidate with score 0. -/
def dbC6 : DB :=
  ⟨[], [⟨1, 1, 1, 1, .reviewed, some "Q1", some 1, none, 1, some 0, none, false⟩],
   [⟨1, 1, 1, "Q1", 0, .accepted, none, false⟩], 10⟩

/-- Project row for the C6 failing input. -/
def pC6 : ProjectRow := ⟨1, 1, .review_ready⟩

/-- C6 (code bug): a project with exactly one accepted candidate of score
0 has a zero average, but `get_stats` guards the average with Python
truthiness (`if candidate_row.avg_score`) and therefore returns `None`
instead of `0.0`. -/
theorem C6_avg_score_zero_returns_null :
    acceptedCount dbC6 pC6 = 1 ∧ avgScoreSql dbC6 pC6 = some 0 ∧
      statsAvgScore dbC6 pC6 = none := by decide

/-! ## Claim C7: rerun with the `no_candidates` criterion -/

/-- C7: `rerunTasks` with criteria `no_candidates` succeeds, returns the
number of live project tasks in status `no_candidates_found`, rewrites
exactly those tasks to status `new` with the accepted pointers and error
message cleared (all other columns kept), and leaves every other task and
table untouched. -/
theorem C7_rerun_no_candidates_resets_exactly (db : DB) (p : ProjectRow) :
    ∃ db2 n, rerunTasks db p (some "no_candidates") none = .ok (db2, n) ∧
      n = db.tasks.countP (fun t => t.project_id = p.id && !t.deleted &&
        t.status = TaskStatus.no_candidates_found) ∧
      db2.entries = db.entries ∧ db2.cands = db.cands ∧
      db2.nextId = db.nextId ∧
      db2.tasks.length = db.tasks.length ∧
      (∀ i (h1 : i < db.tasks.length) (h2 : i < db2.tasks.length),
        ((db.tasks.get ⟨i, h1⟩).project_id = p.id ∧
            (db.tasks.get ⟨i, h1⟩).deleted = false ∧
            (db.tasks.get ⟨i, h1⟩).status = TaskStatus.no_candidates_found →
          (db2.tasks.get ⟨i, h2⟩).status = TaskStatus.new ∧
          (db2.tasks.get ⟨i, h2⟩).accepted_wikidata_id = none ∧
          (db2.tasks.get ⟨i, h2⟩).accepted_candidate_id = none ∧
          (db2.tasks.get ⟨i, h2⟩).error_message = none ∧
          (db2.tasks.get ⟨i, h2⟩).id = (db.tasks.get ⟨i, h1⟩).id ∧
          (db2.tasks.get ⟨i, h2⟩).uuid = (db.tasks.get ⟨i, h1⟩).uuid ∧
          (db2.tasks.get ⟨i, h2⟩).project_id = (db.tasks.get ⟨i, h1⟩).project_id ∧
          (db2.tasks.get ⟨i, h2⟩).dataset_entry_id =
            (db.tasks.get ⟨i, h1⟩).dataset_entry_id ∧
          (db2.tasks.get ⟨i, h2⟩).candidate_count =
            (db.tasks.get ⟨i, h1⟩).candidate_count ∧
          (db2.tasks.get ⟨i, h2⟩).highest_score =
            (db.tasks.get ⟨i, h1⟩).highest_score ∧
          (db2.tasks.get ⟨i, h2⟩).reviewed_at =
            (db.tasks.get ⟨i, h1⟩).reviewed_at ∧
          (db2.tasks.get ⟨i, h2⟩).deleted = (db.tasks.get ⟨i, h1⟩).deleted) ∧
        (¬((db.tasks.get ⟨i, h1⟩).project_id = p.id ∧
            (db.tasks.get ⟨i, h1⟩).deleted = false ∧
            (db.tasks.get ⟨i, h1⟩).status = TaskStatus.no_candidates_found) →
          db2.tasks.get ⟨i, h2⟩ = db.tasks.get ⟨i, h1⟩)) := by
  refine ⟨(doReset db (fun t => t.project_id = p.id && !t.deleted &&
      t.status = TaskStatus.no_candidates_found)).1,
    (doReset db (fun t => t.project_id = p.id && !t.deleted &&
      t.status = TaskStatus.no_candidates_found)).2,
    ?_, rfl, rfl, rfl, rfl, by simp [doReset], ?_⟩
  · rw [rerunTasks, if_neg (by decide), if_neg (by decide),
      if_neg (by decide), if_pos (by decide)]
  · intro i h1 h2
    have hget : ((doReset db (fun t => t.project_id = p.id && !t.deleted &&
          t.status = TaskStatus.no_candidates_found)).1).tasks.get ⟨i, h2⟩ =
        (if (db.tasks.get ⟨i, h1⟩).project_id = p.id ∧
            (db.tasks.get ⟨i, h1⟩).deleted = false ∧
            (db.tasks.get ⟨i, h1⟩).status = TaskStatus.no_candidates_found
         then resetTask (db.tasks.get ⟨i, h1⟩) else db.tasks.get ⟨i, h1⟩) := by
      simp only [doReset, List.get_eq_getElem, List.getElem_map]
      by_cases hc : (db.tasks[i]).project_id = p.id ∧
          (db.tasks[i]).deleted = false ∧
          (db.tasks[i]).status = TaskStatus.no_candidates_found
      · rw [if_pos (by simp [hc.1, hc.2.1, hc.2.2]), if_pos hc]
      · rw [if_neg ?_, if_neg hc]
        simp only [Bool.and_eq_true, Bool.not_eq_true', decide_eq_true_eq]
        intro hcon
        exact hc ⟨hcon.1.1, hcon.1.2, hcon.2⟩
    constructor
    · intro hcond
      rw [hget, if_pos hcond]
      exact ⟨rfl, rfl, rfl, rfl, rfl, rfl, rfl, rfl, rfl, rfl, rfl, rfl⟩
    · intro hcond
      rw [hget, if_neg hcond]

/-! ## Claim C5: selector validation for start and rerun -/

/-- Database for the C5 counterexample: one live entry (uuid 7) in
dataset 1 and one failed live task (uuid 5) in project 1. -/
def dbC5 : DB :=
  ⟨[⟨1, 7, 1, false⟩],
   [⟨1, 5, 1, 1, .failed, none, none, none, 0, none, none, false⟩], [], 10⟩

/-- Project row for the C5 counterexample. -/
def pC5 : ProjectRow := ⟨1, 1, .active⟩

/-- C5 counterexample: supplying both selector forms at once is not a
validation error — `start_project` with explicit entry uuids and
`all_entries=True` succeeds, and so does `rerun_tasks` with both a
criterion and explicit task uuids. -/
theorem C5_both_selectors_no_error :
    (startProject dbC5 pC5 (some [7]) true).isOk = true ∧
    (rerunTasks dbC5 pC5 (some "failed") (some [5])).isOk = true := by decide

/-- C5 as amended: at least one selector form must be given, else the
"no selection" validation error; when both are given there is no error —
`start_project` follows the all-entries flag and `rerun_tasks` follows
the explicit task-id set. -/
theorem C5_selector_validation_amended (db : DB) (p : ProjectRow)
    (uuids : Option (List Nat)) (all_entries : Bool)
    (criteria : Option String) (tuuids : Option (List Nat)) :
    (startProject db p uuids all_entries = .error .noSelection ↔
      (truthyListOpt uuids = false ∧ all_entries = false)) ∧
    (all_entries = true →
      startProject db p uuids true = startProject db p none true) ∧
    (rerunTasks db p criteria tuuids = .error .noSelection ↔
      (truthyStrOpt criteria = false ∧ truthyListOpt tuuids = false)) ∧
    (truthyListOpt tuuids = true →
      rerunTasks db p criteria tuuids = rerunTasks db p none tuuids) := by
  refine ⟨?_, ?_, ?_, ?_⟩
  · constructor
    · intro h
      by_contra hcon
      rw [startProject] at h
      rw [if_neg ?_] at h
      · split at h
        · simp at h
        · simp at h
      · simp only [Bool.and_eq_true, Bool.not_eq_true'] at *
        intro hboth
        exact hcon ⟨hboth.1, hboth.2⟩
    · intro ⟨h1, h2⟩
      rw [startProject, if_pos (by simp [h1, h2])]
  · intro hall
    subst hall
    rw [startProject, startProject,
      if_neg (show ¬((!truthyListOpt uuids && !true) = true) by simp),
      if_neg (show ¬((!truthyListOpt (none : Option (List Nat)) && !true) = true) by
        simp),
      show selectedEntryIds db p uuids true =
        selectedEntryIds db p none true from rfl,
      show toCreateOf db p uuids true = toCreateOf db p none true from rfl,
      show dbAfterStart db p uuids true = dbAfterStart db p none true from rfl]
  · constructor
    · intro h
      by_contra hcon
      rw [rerunTasks] at h
      rw [if_neg ?_] at h
      · split at h
        · simp at h
        · split at h
          · simp at h
          · split at h
            · simp at h
            · split at h
              · simp at h
              · simp at h
      · simp only [Bool.and_eq_true, Bool.not_eq_true'] at *
        intro hboth
        exact hcon ⟨hboth.1, hboth.2⟩
    · intro ⟨h1, h2⟩
      rw [rerunTasks, if_pos (by simp [h1, h2])]
  · intro htu
    rw [rerunTasks, rerunTasks,
      if_neg (show ¬((!truthyStrOpt criteria && !truthyListOpt tuuids) = true) by
        simp [htu]),
      if_neg (show ¬((!truthyStrOpt (none : Option String) &&
          !truthyListOpt tuuids) = true) by simp [htu]),
      if_pos htu, if_pos htu]

/-- Witness for the amended C5 at concrete inputs: both rerun selectors
given, the explicit task-id set wins. -/
theorem C5_selector_validation_amended_witness :
    rerunTasks dbC5 pC5 (some "failed") (some [5]) =
      rerunTasks dbC5 pC5 none (some [5]) :=
  (C5_selector_validation_amended dbC5 pC5 (some [7]) true
    (some "failed") (some [5])).2.2.2 (by decide)

/-- Database for the C7 witness: one live `no_candidates_found` task of
project 1 next to a foreign and a deleted task. -/
def dbC7 : DB :=
  ⟨[],
   [⟨1, 1, 1, 1, .no_candidates_found, some "Q9", some 4, some "boom", 0, none,
      none, false⟩,
    ⟨2, 2, 2, 1, .no_candidates_found, none, none, none, 0, none, none, false⟩,
    ⟨3, 3, 1, 2, .no_candidates_found, none, none, none, 0, none, none, true⟩],
   [], 10⟩

/-- Project row for the C7 witness. -/
def pC7 : ProjectRow := ⟨1, 1, .review_ready⟩

/-- Witness for C7 at a concrete state: exactly one task matches. -/
theorem C7_rerun_no_candidates_resets_exactly_witness :
    ∃ db2 n, rerunTasks dbC7 pC7 (some "no_candidates") none =
      .ok (db2, n) ∧ n = 1 := by
  obtain ⟨db2, n, hok, hn, -, -, -, -, -⟩ :=
    C7_rerun_no_candidates_resets_exactly dbC7 pC7
  refine ⟨db2, n, hok, ?_⟩
  rw [hn]
  decide

/-! ## Claim C8: task denormalization invariant -/

theorem insertCands_tasks (tid : Nat) (rows : List (String × Int)) (db : DB) :
    (insertCands db tid rows).tasks = db.tasks := by
  induction rows generalizing db with
  | nil => rfl
  | cons hd tl ih =>
    obtain ⟨w, s⟩ := hd
    rw [insertCands]
    exact ih _

theorem insertCands_live_other (tid : Nat) (rows : List (String × Int))
    (db : DB) (tid2 : Nat) (hne : tid2 ≠ tid) :
    liveCandsFor (insertCands db tid rows) tid2 = liveCandsFor db tid2 := by
  induction rows generalizing db with
  | nil => rfl
  | cons hd tl ih =>
    obtain ⟨w, s⟩ := hd
    rw [insertCands, ih]
    simp only [liveCandsFor, List.filter_append]
    have : (List.filter (fun c => c.task_id = tid2 && !c.deleted)
        [mkCand db.nextId tid w s]) = [] := by
      simp [mkCand]
      exact fun h => hne h.symm
    rw [this, List.append_nil]

theorem stats_after_insert (db : DB) (tid : Nat) (rows : List (String × Int))
    (h : taskStatsOk db) :
    taskStatsOk (updateTaskStats (insertCands db tid rows) tid) := by
  intro t2 ht2
  have hcands : (updateTaskStats (insertCands db tid rows) tid).cands =
      (insertCands db tid rows).cands := rfl
  have hlive : ∀ i, liveCandsFor (updateTaskStats (insertCands db tid rows) tid) i =
      liveCandsFor (insertCands db tid rows) i := fun i => rfl
  simp only [updateTaskStats, List.mem_map] at ht2
  obtain ⟨t, ht, hft⟩ := ht2
  by_cases hid : t.id = tid
  · rw [if_pos hid] at hft
    subst hft
    refine ⟨?_, ?_⟩
    · rw [hlive]
      simp [hid]
    · rw [hlive]
      simp [hid]
  · rw [if_neg hid] at hft
    subst hft
    have htdb : t ∈ db.tasks := by
      rw [insertCands_tasks] at ht
      exact ht
    refine ⟨?_, ?_⟩
    · rw [hlive, insertCands_live_other tid rows db t.id hid]
      exact (h t htdb).1
    · rw [hlive, insertCands_live_other tid rows db t.id hid]
      exact (h t htdb).2

theorem applyCandOp_stats (db : DB) (op : CandOp) (h : taskStatsOk db) :
    taskStatsOk (applyCandOp db op) := by
  cases op with
  | createOne tid w s => exact stats_after_insert db tid [(w, s)] h
  | createBulk tid rows => exact stats_after_insert db tid rows h

/-- C8: starting from any state whose denormalized task statistics agree
with the candidate table, any sequence of single or bulk candidate
creations (each followed by `_update_task_stats` as in the service)
preserves the agreement: every task's `candidate_count` is its live
candidate count and `highest_score` the live maximum (null when none). -/
theorem C8_task_stats_invariant (db : DB) (ops : List CandOp)
    (h : taskStatsOk db) : taskStatsOk (ops.foldl applyCandOp db) := by
  induction ops generalizing db with
  | nil => exact h
  | cons op tl ih => exact ih (applyCandOp db op) (applyCandOp_stats db op h)

/-- Database for the C8 witness: one fresh task, no candidates. -/
def dbC8 : DB :=
  ⟨[], [⟨1, 1, 1, 1, .processing, none, none, none, 0, none, none, false⟩],
   [], 10⟩

/-- Operation list for the C8 witness: one single and one bulk creation. -/
def opsC8 : List CandOp :=
  [.createOne 1 "Q1" 80, .createBulk 1 [("Q2", 90), ("Q3", 70)]]

/-- Witness for C8 at a concrete run: the invariant holds afterwards, and
the concrete statistics are 3 candidates with maximum 90. -/
theorem C8_task_stats_invariant_witness :
    taskStatsOk (opsC8.foldl applyCandOp dbC8) ∧
    (opsC8.foldl applyCandOp dbC8).tasks.map
      (fun t => (t.candidate_count, t.highest_score)) = [(3, some 90)] :=
  ⟨C8_task_stats_invariant dbC8 opsC8 (by
      intro t ht
      simp only [dbC8, List.mem_singleton] at ht
      subst ht
      exact ⟨rfl, rfl⟩),
   by decide⟩

/-! ## Claim C4: bulk task creation and idempotence -/

theorem mkTasks_mem {pid sid : Nat} {l : List Nat} {t : TaskRow}
    (h : t ∈ mkTasks pid sid l) :
    t.project_id = pid ∧ t.status = TaskStatus.new ∧ t.deleted = false ∧
      t.dataset_entry_id ∈ l := by
  induction l generalizing sid with
  | nil => simp [mkTasks] at h
  | cons e r ih =>
    rw [mkTasks] at h
    rcases List.mem_cons.mp h with h1 | h2
    · subst h1
      exact ⟨rfl, rfl, rfl, List.mem_cons_self e r⟩
    · obtain ⟨h1, h2, h3, h4⟩ := ih h2
      exact ⟨h1, h2, h3, List.mem_cons_of_mem e h4⟩

theorem mkTasks_existing (pid sid : Nat) (l : List Nat) :
    ((mkTasks pid sid l).filter
      (fun t => t.project_id = pid && !t.deleted)).map
      (fun t => t.dataset_entry_id) = l := by
  induction l generalizing sid with
  | nil => rfl
  | cons e r ih =>
    rw [mkTasks, List.filter_cons]
    rw [if_pos (by simp [mkNewTask])]
    rw [List.map_cons, ih]
    rfl

theorem existing_after_start (db : DB) (p : ProjectRow)
    (uuids : Option (List Nat)) (all_entries : Bool) :
    existingEntryIds (dbAfterStart db p uuids all_entries)
        {p with status := ProjectStatus.pending_search} =
      existingEntryIds db p ++ toCreateOf db p uuids all_entries := by
  show ((db.tasks ++ mkTasks p.id db.nextId
      (toCreateOf db p uuids all_entries)).filter
      (fun t => t.project_id = p.id && !t.deleted)).map
      (fun t => t.dataset_entry_id) = _
  rw [List.filter_append, List.map_append, mkTasks_existing]
  rfl

theorem toCreate_after_start (db : DB) (p : ProjectRow)
    (uuids : Option (List Nat)) (all_entries : Bool) :
    toCreateOf (dbAfterStart db p uuids all_entries)
      {p with status := ProjectStatus.pending_search} uuids all_entries = [] := by
  rw [show toCreateOf (dbAfterStart db p uuids all_entries)
      {p with status := ProjectStatus.pending_search} uuids all_entries =
    (selectedEntryIds db p uuids all_entries).filter
      (fun i => !decide (i ∈ existingEntryIds
        (dbAfterStart db p uuids all_entries)
        {p with status := ProjectStatus.pending_search})) from rfl]
  rw [existing_after_start]
  rw [List.filter_eq_nil_iff]
  intro a ha
  by_cases hae : a ∈ existingEntryIds db p
  · simp [hae]
  · have hatc : a ∈ toCreateOf db p uuids all_entries :=
      List.mem_filter.mpr ⟨ha, by simp [hae]⟩
    simp [hatc]

/-- C4: when a selector is given, `start_project` errors exactly when the
entry selection is empty; on success it creates task rows exactly for the
selected entries without an existing task, returns their number, leaves
the other tables alone, moves the project to `pending_search`, and running
it again on the resulting state with the same selector creates 0
additional tasks and changes nothing. -/
theorem C4_start_project_idempotent (db : DB) (p : ProjectRow)
    (uuids : Option (List Nat)) (all_entries : Bool)
    (hsel : truthyListOpt uuids = true ∨ all_entries = true) :
    (startProject db p uuids all_entries = .error .noEntries ↔
      selectedEntryIds db p uuids all_entries = []) ∧
    (∀ db2 p2 n, startProject db p uuids all_entries = .ok (db2, p2, n) →
      n = (toCreateOf db p uuids all_entries).length ∧
      db2.tasks = db.tasks ++
        mkTasks p.id db.nextId (toCreateOf db p uuids all_entries) ∧
      db2.entries = db.entries ∧ db2.cands = db.cands ∧
      p2 = {p with status := ProjectStatus.pending_search} ∧
      (∀ t ∈ db2.tasks, t ∈ db.tasks ∨
        (t.project_id = p.id ∧ t.status = TaskStatus.new ∧
         t.deleted = false ∧
         t.dataset_entry_id ∈ selectedEntryIds db p uuids all_entries ∧
         ¬ t.dataset_entry_id ∈ existingEntryIds db p)) ∧
      startProject db2 p2 uuids all_entries = .ok (db2, p2, 0)) := by
  have hif : ¬((!truthyListOpt uuids && !all_entries) = true) := by
    rcases hsel with h | h <;> simp [h]
  constructor
  · rw [startProject, if_neg hif]
    by_cases hempty : selectedEntryIds db p uuids all_entries = []
    · rw [if_pos hempty]
      simp [hempty]
    · rw [if_neg hempty]
      simp [hempty]
  · intro db2 p2 n hok
    rw [startProject, if_neg hif] at hok
    by_cases hempty : selectedEntryIds db p uuids all_entries = []
    · rw [if_pos hempty] at hok
      exact Except.noConfusion hok
    · rw [if_neg hempty] at hok
      obtain ⟨hdb2, hp2, hn⟩ : _ ∧ _ ∧ _ := by simpa [Prod.ext_iff] using hok
      refine ⟨hn.symm, ?_, ?_, ?_, hp2.symm, ?_, ?_⟩
      · rw [← hdb2]
        rfl
      · rw [← hdb2]
        rfl
      · rw [← hdb2]
        rfl
      · intro t ht
        rw [← hdb2] at ht
        rcases List.mem_append.mp ht with h1 | h2
        · exact Or.inl h1
        · right
          obtain ⟨hpid, hstat, hdel, hmem⟩ := mkTasks_mem h2
          obtain ⟨hsel2, hcon⟩ := List.mem_filter.mp hmem
          refine ⟨hpid, hstat, hdel, hsel2, ?_⟩
          intro hmem2
          simp [hmem2] at hcon
      · rw [← hdb2, ← hp2, startProject, if_neg hif]
        rw [show selectedEntryIds (dbAfterStart db p uuids all_entries)
            {p with status := ProjectStatus.pending_search} uuids all_entries =
          selectedEntryIds db p uuids all_entries from rfl]
        rw [if_neg hempty]
        rw [show dbAfterStart (dbAfterStart db p uuids all_entries)
            {p with status := ProjectStatus.pending_search} uuids all_entries =
          {(dbAfterStart db p uuids all_entries) with
            tasks := (dbAfterStart db p uuids all_entries).tasks ++
              mkTasks p.id (dbAfterStart db p uuids all_entries).nextId
                (toCreateOf (dbAfterStart db p uuids all_entries)
                  {p with status := ProjectStatus.pending_search} uuids all_entries)
            nextId := (dbAfterStart db p uuids all_entries).nextId +
              (toCreateOf (dbAfterStart db p uuids all_entries)
                {p with status := ProjectStatus.pending_search} uuids
                all_entries).length} from rfl]
        rw [toCreate_after_start]
        simp only [mkTasks, List.append_nil, List.length_nil, Nat.add_zero]

/-- Database for the C4 witness: dataset 1 with three live entries, no
tasks yet. -/
def dbC4 : DB :=
  ⟨[⟨1, 11, 1, false⟩, ⟨2, 12, 1, false⟩, ⟨3, 13, 1, false⟩], [], [], 100⟩

/-- Project row for the C4 witness. -/
def pC4 : ProjectRow := ⟨1, 1, .active⟩

/-- Witness for C4: starting with `all_entries=true` creates 3 tasks and
moves the project to `pending_search`; starting again creates 0. -/
theorem C4_start_project_idempotent_witness :
    ∃ db2 p2, startProject dbC4 pC4 none true = .ok (db2, p2, 3) ∧
      p2.status = ProjectStatus.pending_search ∧
      startProject db2 p2 none true = .ok (db2, p2, 0) := by
  have h := (C4_start_project_idempotent dbC4 pC4 none true (Or.inr rfl)).2
  rcases hrun : startProject dbC4 pC4 none true with e | v
  · exfalso
    have hok : (startProject dbC4 pC4 none true).isOk = true := by decide
    rw [hrun] at hok
    exact Bool.noConfusion hok
  · obtain ⟨db2, p2, n⟩ := v
    obtain ⟨hn, -, -, -, hp2, -, hagain⟩ := h db2 p2 n hrun
    have hn3 : n = 3 := by
      rw [hn]
      decide
    subst hn3
    exact ⟨db2, p2, rfl, by rw [hp2], hagain⟩

/-! ## Claim C10: missing versus invalid dates in `DateMatcher.compare` -/

theorem dropWhile_all_pyspace (l : List Char) (h : l.all isPySpace = true) :
    l.dropWhile isPySpace = [] := by
  induction l with
  | nil => rfl
  | cons c r ih =>
    rw [List.all_cons, Bool.and_eq_true] at h
    rw [List.dropWhile_cons, if_pos h.1]
    exact ih h.2

theorem stripChars_all_pyspace (l : List Char) (h : l.all isPySpace = true) :
    stripChars l = [] := by
  rw [stripChars, dropWhile_all_pyspace l h]
  rfl

/-- C10: `compare` reports `missing_date` exactly when one input is
literally `None`; any non-`None` pair where either side fails to parse
(including empty and whitespace-only strings, which never parse) yields
score 0 with reason `invalid_date_format`; both cases return a normal
`MatchScore` rather than raising. -/
theorem C10_missing_only_for_none (st : MatchingSettings)
    (a b : Option DateVal) :
    (dateCompare st a b =
        ⟨.date, 0, st.date_weight, .missingDate⟩ ↔ (a = none ∨ b = none)) ∧
    (∀ x y, a = some x → b = some y →
      (parseDateVal x = none ∨ parseDateVal y = none) →
      dateCompare st a b = ⟨.date, 0, st.date_weight, .invalidDateFormat⟩) ∧
    (∀ s : String, s.data.all isPySpace = true → pyParseDateStr s = none) := by
  refine ⟨?_, ?_, ?_⟩
  · rcases a with _ | x
    · simp [dateCompare]
    · rcases b with _ | y
      · simp [dateCompare]
      · rw [show dateCompare st (some x) (some y) =
            dateCompareParsed st (parseDateVal x) (parseDateVal y) from rfl]
        rcases parseDateVal x with _ | p
        · simp [dateCompareParsed]
        · rcases parseDateVal y with _ | q
          · simp [dateCompareParsed]
          · rw [dateCompareParsed]
            constructor
            · intro h
              split_ifs at h <;> simp at h
            · intro h
              simp at h
  · intro x y hx hy hpar
    subst hx
    subst hy
    rw [show dateCompare st (some x) (some y) =
        dateCompareParsed st (parseDateVal x) (parseDateVal y) from rfl]
    rcases hpar with h | h
    · rw [h]
      rcases parseDateVal y with _ | q <;> rfl
    · rw [h]
      rcases parseDateVal x with _ | p <;> rfl
  · intro s hws
    rw [pyParseDateStr, stripChars_all_pyspace s.data hws]
    rfl

/-- Witness for C10: an empty entry-side string against a parseable date
object yields `invalid_date_format`, not `missing_date`. -/
theorem C10_missing_only_for_none_witness :
    dateCompare defaultMatching (some (.str "")) (some (.dt ⟨1960, 3, 11⟩)) =
      ⟨.date, 0, defaultMatching.date_weight, .invalidDateFormat⟩ :=
  (C10_missing_only_for_none defaultMatching (some (.str ""))
    (some (.dt ⟨1960, 3, 11⟩))).2.1 (.str "") (.dt ⟨1960, 3, 11⟩) rfl rfl
    (Or.inl (by decide))

/-! ## Claim C3: confidence tiering -/

/-- Confidence tiering exactly as the specification words it, in order. -/
def specTier (st : MatchingSettings) (score : Int) (nMatched : Nat) :
    Confidence :=
  if score ≥ st.auto_accept_threshold then .high
  else if score ≥ st.high_confidence_threshold then
    (if nMatched ≥ 2 then .high else .medium)
  else if score ≥ st.low_confidence_threshold then .medium
  else .low

theorem matchedOf_nil_of_scores_nil (st : MatchingSettings)
    (fuzz3 : String → String → Int) (entry : EntryData)
    (entity : WikidataEntity) (h : scoresOf st fuzz3 entry entity = []) :
    matchedOf st fuzz3 entry entity = [] := by
  rw [scoresOf] at h
  rw [matchedOf]
  rcases hn : nameSOf st fuzz3 entry entity with _ | s <;>
    rcases hd : dateSOf st entry entity with _ | s2 <;>
    rw [hn, hd] at h <;> simp [optList] at h ⊢

/-- C3: when `calculate` produced at least one `MatchScore`, its
confidence tier is exactly the spec's ordered tiering applied to the
total score and the number of matched fields; when it produced none, the
result is total 0, confidence `none` and empty `matched_fields`. -/
theorem C3_confidence_tiering (st : MatchingSettings)
    (fuzz3 : String → String → Int) (entry : EntryData)
    (entity : WikidataEntity) :
    ((calculate st fuzz3 entry entity).scores ≠ [] →
      (calculate st fuzz3 entry entity).confidence =
        specTier st (calculate st fuzz3 entry entity).total_score
          (calculate st fuzz3 entry entity).matched_fields.length) ∧
    ((calculate st fuzz3 entry entity).scores = [] →
      calculate st fuzz3 entry entity = ⟨0, [], .noneConf, []⟩) := by
  by_cases hempty : scoresOf st fuzz3 entry entity = []
  · constructor
    · intro h
      rw [calculate, if_pos hempty] at h
      exact absurd hempty h
    · intro _
      rw [calculate, if_pos hempty, hempty,
        matchedOf_nil_of_scores_nil st fuzz3 entry entity hempty]
  · constructor
    · intro _
      rw [calculate, if_neg hempty]
      rfl
    · intro h
      rw [calculate, if_neg hempty] at h
      exact absurd h hempty

/-- All-zero stand-in for the external rapidfuzz similarity measures. -/
def fzero : String → String → Int := fun _ _ => 0

/-- Entry input for the scoring witnesses. -/
def entryCW : EntryData :=
  ⟨some "Douglas Adams", none, some (.str "1952-03-11"), none⟩

/-- Target entity for the scoring witnesses (date of birth claim in the
external knowledge-base encoding). -/
def entityCW : WikidataEntity :=
  ⟨some "Douglas Adams", none,
   [("P569", [⟨some ⟨some ⟨some (.obj (some "+1952-07-15T00:00:00Z"))⟩⟩⟩])]⟩

/-- Witness for C3 at a concrete exact-name, year-only-date input. -/
theorem C3_confidence_tiering_witness :
    (calculate defaultMatching fzero entryCW entityCW).confidence =
      specTier defaultMatching
        (calculate defaultMatching fzero entryCW entityCW).total_score
        (calculate defaultMatching fzero entryCW entityCW).matched_fields.length :=
  (C3_confidence_tiering defaultMatching fzero entryCW entityCW).1 (by decide)

/-! ## Claim C1: the composite score is the weight-normalized average -/

theorem aliasLoop_bounds (st : MatchingSettings)
    (fuzz3 : String → String → Int) (en : String)
    (hne0 : 0 ≤ st.name_exact_score) (hne1 : st.name_exact_score ≤ 100)
    (hf : ∀ a b, 0 ≤ fuzz3 a b ∧ fuzz3 a b ≤ 100)
    (l : List String) (best : Int) (bm : NameTarget)
    (hb0 : 0 ≤ best) (hb1 : best ≤ 100) :
    0 ≤ (aliasLoop st fuzz3 en l best bm).score ∧
      (aliasLoop st fuzz3 en l best bm).score ≤ 100 ∧
      (aliasLoop st fuzz3 en l best bm).weight = st.name_weight := by
  induction l generalizing best bm with
  | nil => exact ⟨hb0, hb1, rfl⟩
  | cons a rest ih =>
    rw [aliasLoop]
    split_ifs with h1 h2
    · exact ⟨hne0, hne1, rfl⟩
    · exact ih (fuzz3 en (normalizeName a)) (.aliasNamed a)
        (hf en (normalizeName a)).1 (hf en (normalizeName a)).2
    · exact ih best bm hb0 hb1

theorem nameCompare_bounds (st : MatchingSettings)
    (fuzz3 : String → String → Int) (a b : String)
    (al : Option (List String))
    (hne0 : 0 ≤ st.name_exact_score) (hne1 : st.name_exact_score ≤ 100)
    (hf : ∀ x y, 0 ≤ fuzz3 x y ∧ fuzz3 x y ≤ 100) :
    0 ≤ (nameCompare st fuzz3 a b al).score ∧
      (nameCompare st fuzz3 a b al).score ≤ 100 ∧
      (nameCompare st fuzz3 a b al).weight = st.name_weight := by
  rw [nameCompare]
  split_ifs with h1 h2
  · exact ⟨le_refl 0, (by decide : (0 : Int) ≤ 100), rfl⟩
  · exact ⟨hne0, hne1, rfl⟩
  · exact aliasLoop_bounds st fuzz3 (normalizeName a) hne0 hne1 hf
      (al.getD []) (fuzz3 (normalizeName a) (normalizeName b)) .label
      (hf _ _).1 (hf _ _).2

theorem dateCompare_bounds (st : MatchingSettings) (a b : Option DateVal)
    (hde0 : 0 ≤ st.date_exact_score) (hde1 : st.date_exact_score ≤ 100)
    (hdy0 : 0 ≤ st.date_year_only_score)
    (hdy1 : st.date_year_only_score ≤ 100) :
    0 ≤ (dateCompare st a b).score ∧ (dateCompare st a b).score ≤ 100 ∧
      (dateCompare st a b).weight = st.date_weight := by
  rcases a with _ | x
  · exact ⟨le_refl 0, (by decide : (0 : Int) ≤ 100), rfl⟩
  · rcases b with _ | y
    · exact ⟨le_refl 0, (by decide : (0 : Int) ≤ 100), rfl⟩
    · rw [show dateCompare st (some x) (some y) =
          dateCompareParsed st (parseDateVal x) (parseDateVal y) from rfl]
      rcases parseDateVal x with _ | p
      · exact ⟨le_refl 0, (by decide : (0 : Int) ≤ 100), rfl⟩
      · rcases parseDateVal y with _ | q
        · exact ⟨le_refl 0, (by decide : (0 : Int) ≤ 100), rfl⟩
        · rw [dateCompareParsed]
          split_ifs with h1 h2 h3
          · exact ⟨hde0, hde1, rfl⟩
          · refine ⟨le_trans hdy0 (le_max_right _ _), ?_, rfl⟩
            refine max_le ?_ hdy1
            have hd0 : 0 ≤ dateDiffDays p q := by
              rw [dateDiffDays]
              exact Int.natCast_nonneg _
            omega
          · exact ⟨hdy0, hdy1, rfl⟩
          · exact ⟨le_refl 0, (by decide : (0 : Int) ≤ 100), rfl⟩

theorem scoresOf_bounds (st : MatchingSettings)
    (fuzz3 : String → String → Int) (entry : EntryData)
    (entity : WikidataEntity)
    (hnw : 0 ≤ st.name_weight) (hdw : 0 ≤ st.date_weight)
    (hne0 : 0 ≤ st.name_exact_score) (hne1 : st.name_exact_score ≤ 100)
    (hde0 : 0 ≤ st.date_exact_score) (hde1 : st.date_exact_score ≤ 100)
    (hdy0 : 0 ≤ st.date_year_only_score)
    (hdy1 : st.date_year_only_score ≤ 100)
    (hf : ∀ x y, 0 ≤ fuzz3 x y ∧ fuzz3 x y ≤ 100) :
    ∀ s ∈ scoresOf st fuzz3 entry entity,
      0 ≤ s.score ∧ s.score ≤ 100 ∧ 0 ≤ s.weight := by
  intro s hs
  rw [scoresOf] at hs
  rcases List.mem_append.mp hs with h | h
  · rw [nameSOf] at h
    split_ifs at h with hc
    · rw [optList, List.mem_singleton] at h
      subst h
      obtain ⟨h1, h2, h3⟩ := nameCompare_bounds st fuzz3
        ((entryNameOf entry).getD "") (entity.label.getD "") entity.aliases
        hne0 hne1 hf
      rw [h3] at *
      exact ⟨h1, h2, hnw⟩
    · simp [optList] at h
  · rw [dateSOf] at h
    split_ifs at h with hc
    · rw [optList, List.mem_singleton] at h
      subst h
      obtain ⟨h1, h2, h3⟩ := dateCompare_bounds st (entryDobOf entry)
        ((extractWikidataDate entity "P569").map DateVal.str)
        hde0 hde1 hdy0 hdy1
      rw [h3] at *
      exact ⟨h1, h2, hdw⟩
    · simp [optList] at h

theorem sumW_acc (l : List MatchScore) (acc : ℚ) :
    l.foldl (fun a s => qadd a s.weight) acc =
      acc + (l.map (fun s => s.weight)).sum := by
  induction l generalizing acc with
  | nil => simp
  | cons s r ih =>
    rw [List.foldl_cons, ih, qadd_eq, List.map_cons, List.sum_cons]
    ring

theorem sumSW_acc (l : List MatchScore) (acc : ℚ) :
    l.foldl (fun a s => qadd a (qmulInt s.score s.weight)) acc =
      acc + (l.map (fun s => (s.score : ℚ) * s.weight)).sum := by
  induction l generalizing acc with
  | nil => simp
  | cons s r ih =>
    rw [List.foldl_cons, ih, qadd_eq, qmulInt_eq, List.map_cons, List.sum_cons]
    ring

theorem sum_bounds (l : List MatchScore)
    (h : ∀ s ∈ l, 0 ≤ s.score ∧ s.score ≤ 100 ∧ 0 ≤ s.weight) :
    0 ≤ sumW l ∧ 0 ≤ sumSW l ∧ sumSW l ≤ 100 * sumW l := by
  rw [sumW, sumSW, sumW_acc, sumSW_acc, zero_add, zero_add]
  induction l with
  | nil => simp
  | cons s r ih =>
    have hs := h s (List.mem_cons_self s r)
    have hr := ih (fun x hx => h x (List.mem_cons_of_mem s hx))
    rw [List.map_cons, List.sum_cons, List.map_cons, List.sum_cons]
    have hsw0 : (0 : ℚ) ≤ (s.score : ℚ) * s.weight :=
      mul_nonneg (by exact_mod_cast hs.1) hs.2.2
    have hsw1 : (s.score : ℚ) * s.weight ≤ 100 * s.weight := by
      apply mul_le_mul_of_nonneg_right _ hs.2.2
      exact_mod_cast hs.2.1
    constructor
    · linarith [hr.1, hs.2.2]
    constructor
    · linarith [hr.2.1]
    · linarith [hr.2.2]

/-- C1: whenever `calculate` produced at least one `MatchScore`, the
total score is the half-to-even rounding of
`sum(score_i * weight_i) / sum(weight_i)` over the produced scores, an
integer in `[0, 100]`, and it is `0` when the weights sum to zero.  The
hypotheses are the documented ranges of the configuration (`0-100`
integer scores, non-negative weights) and of the rapidfuzz ratios. -/
theorem C1_total_is_weighted_average (st : MatchingSettings)
    (fuzz3 : String → String → Int) (entry : EntryData)
    (entity : WikidataEntity)
    (hnw : 0 ≤ st.name_weight) (hdw : 0 ≤ st.date_weight)
    (hne0 : 0 ≤ st.name_exact_score) (hne1 : st.name_exact_score ≤ 100)
    (hde0 : 0 ≤ st.date_exact_score) (hde1 : st.date_exact_score ≤ 100)
    (hdy0 : 0 ≤ st.date_year_only_score)
    (hdy1 : st.date_year_only_score ≤ 100)
    (hf : ∀ x y, 0 ≤ fuzz3 x y ∧ fuzz3 x y ≤ 100) :
    (calculate st fuzz3 entry entity).scores ≠ [] →
      ((sumW (calculate st fuzz3 entry entity).scores ≠ 0 →
        (calculate st fuzz3 entry entity).total_score =
          rhe (qdiv (sumSW (calculate st fuzz3 entry entity).scores)
            (sumW (calculate st fuzz3 entry entity).scores))) ∧
       (sumW (calculate st fuzz3 entry entity).scores = 0 →
        (calculate st fuzz3 entry entity).total_score = 0) ∧
       0 ≤ (calculate st fuzz3 entry entity).total_score ∧
       (calculate st fuzz3 entry entity).total_score ≤ 100) := by
  intro hne
  have hempty : scoresOf st fuzz3 entry entity ≠ [] := by
    intro hc
    rw [calculate, if_pos hc] at hne
    exact hne hc
  have hbounds := scoresOf_bounds st fuzz3 entry entity hnw hdw hne0 hne1
    hde0 hde1 hdy0 hdy1 hf
  obtain ⟨hw0, hsw0, hswle⟩ := sum_bounds _ hbounds
  have hsc : (calculate st fuzz3 entry entity).scores =
      scoresOf st fuzz3 entry entity := by
    rw [calculate, if_neg hempty]
  have htot : (calculate st fuzz3 entry entity).total_score =
      rhe (weightedAvg (scoresOf st fuzz3 entry entity)) := by
    rw [calculate, if_neg hempty]
  rw [hsc, htot]
  refine ⟨?_, ?_, ?_⟩
  · intro hnz
    rw [weightedAvg, if_neg hnz]
  · intro hz
    rw [weightedAvg, if_pos hz]
    decide
  · by_cases hz : sumW (scoresOf st fuzz3 entry entity) = 0
    · rw [weightedAvg, if_pos hz]
      exact ⟨by decide, by decide⟩
    · rw [weightedAvg, if_neg hz, qdiv_eq]
      have hwpos : 0 < sumW (scoresOf st fuzz3 entry entity) :=
        lt_of_le_of_ne hw0 (Ne.symm hz)
      have h0 : 0 ≤ sumSW (scoresOf st fuzz3 entry entity) /
          sumW (scoresOf st fuzz3 entry entity) := div_nonneg hsw0 hw0
      have h1 : sumSW (scoresOf st fuzz3 entry entity) /
          sumW (scoresOf st fuzz3 entry entity) ≤ ((100 : Int) : ℚ) := by
        rw [div_le_iff₀ hwpos]
        push_cast
        linarith
      exact rhe_bounds _ 100 h0 h1

/-- Witness for C1 at a concrete input that yields a name score of 100 at
weight 0.5 and a date score of 80 at weight 0.3: the total is the rounded
weighted average, which evaluates to round-half-even(92.5) = 92. -/
theorem C1_total_is_weighted_average_witness :
    ((calculate defaultMatching fzero entryCW entityCW).total_score =
      rhe (qdiv (sumSW (calculate defaultMatching fzero entryCW entityCW).scores)
        (sumW (calculate defaultMatching fzero entryCW entityCW).scores))) ∧
    (calculate defaultMatching fzero entryCW entityCW).total_score = 92 :=
  ⟨(C1_total_is_weighted_average defaultMatching fzero entryCW entityCW
      (by decide) (by decide) (by decide) (by decide) (by decide) (by decide)
      (by decide) (by decide)
      (fun x y => ⟨le_refl 0, (by decide : (0 : Int) ≤ 100)⟩)
      (by decide)).1 (by decide),
   by decide⟩

/-! ## Claim C9: the `_parse_date` rule pipeline

The two `strptime` prefix attempts of the format loop are shown never to
fire on inputs of the exact claimed shapes (so those rules hold as
claimed), while they can preempt the first-10-characters rule and the
year fallback on other inputs, which refutes the claimed pipeline and
forces the amended one. -/


theorem eq_of_mem_ite_single {α : Type} {c : Prop} [Decidable c] {x y : α}
    (h : x ∈ (if c then [y] else [])) : x = y := by
  split at h
  · exact List.mem_singleton.mp h
  · exact absurd h (List.not_mem_nil x)

theorem fmt1A (a b c d f g : Char) (ha : isDig a = true) (hb : isDig b = true)
    (hc : isDig c = true) (hd : isDig d = true) (hf : isDig f = true)
    (hg : isDig g = true) :
    strptimeYmd [a, b, c, d, '-', f, g] = none := by
  have hgd : g ≠ '-' := isDig_ne_of g '-' hg (by decide)
  have hraw : strptimeYmdRaw [a, b, c, d, '-', f, g] = none := by
    rw [strptimeYmdRaw]
    rw [if_pos (by simp [ha, hb, hc, hd])]
    rw [monthAlts]
    split_ifs <;> simp [List.findSome?, hgd]
  rw [strptimeYmd, hraw]
  rfl

theorem fmt2C (a b c d f g i j : Char) (ha : isDig a = true)
    (hb : isDig b = true) (hc : isDig c = true) (hd : isDig d = true)
    (hf : isDig f = true) (hg : isDig g = true) (hi : isDig i = true)
    (hj : isDig j = true) :
    strptimeYmdT [a, b, c, d, '-', f, g, '-', i, j] = none := by
  have hgd : g ≠ '-' := isDig_ne_of g '-' hg (by decide)
  have hjT : j ≠ 'T' := isDig_ne_of j 'T' hj (by decide)
  have hjt : j ≠ 't' := isDig_ne_of j 't' hj (by decide)
  have hraw : strptimeYmdTRaw [a, b, c, d, '-', f, g, '-', i, j] = none := by
    rw [strptimeYmdTRaw]
    rw [if_pos (by simp [ha, hb, hc, hd])]
    apply List.findSome?_eq_none_iff.mpr
    intro mr hmr
    rw [show monthAlts [f, g, '-', i, j] =
        ((if f = '1' && 48 ≤ g.toNat && g.toNat ≤ 50 then
            [(10 + dval g, ['-', i, j])] else []) ++
         (if f = '0' && 49 ≤ g.toNat && g.toNat ≤ 57 then
            [(dval g, ['-', i, j])] else [])) ++
        (if 49 ≤ f.toNat && f.toNat ≤ 57 then
            [(dval f, [g, '-', i, j])] else []) from rfl] at hmr
    rcases List.mem_append.mp hmr with h1 | h1
    · have hmr2 : mr.2 = ['-', i, j] := by
        rcases List.mem_append.mp h1 with h2 | h2 <;>
          rw [eq_of_mem_ite_single h2]
      obtain ⟨m, r⟩ := mr
      simp only at hmr2
      subst hmr2
      simp only
      rw [if_pos trivial]
      apply List.findSome?_eq_none_iff.mpr
      intro dr hdr
      rw [show dayAlts [i, j] =
          (((if i = '3' && (j = '0' || j = '1') then [(30 + dval j, ([] : List Char))] else []) ++
            (if (i = '1' || i = '2') && isDig j then [(10 * dval i + dval j, ([] : List Char))] else []) ++
            (if i = '0' && 49 ≤ j.toNat && j.toNat ≤ 57 then [(dval j, ([] : List Char))] else []))) ++
          (if 49 ≤ i.toNat && i.toNat ≤ 57 then [(dval i, [j])] else []) from rfl] at hdr
      rcases List.mem_append.mp hdr with h3 | h3
      · have hdr2 : dr.2 = [] := by
          rcases List.mem_append.mp h3 with h4 | h4
          · rcases List.mem_append.mp h4 with h5 | h5 <;>
              rw [eq_of_mem_ite_single h5]
          · rw [eq_of_mem_ite_single h4]
        obtain ⟨dd, r2⟩ := dr
        simp only at hdr2
        subst hdr2
        rfl
      · have hdr2 : dr.2 = [j] := by rw [eq_of_mem_ite_single h3]
        obtain ⟨dd, r2⟩ := dr
        simp only at hdr2
        subst hdr2
        simp only
        rw [if_neg (by simp [hjT, hjt])]
    · have hmr2 : mr.2 = [g, '-', i, j] := by rw [eq_of_mem_ite_single h1]
      obtain ⟨m, r⟩ := mr
      simp only at hmr2
      subst hmr2
      simp only
      rw [if_neg hgd]
  rw [strptimeYmdT, hraw]
  rfl



theorem fmt2B (a b c d f g i j k m1 : Char) (ha : isDig a = true)
    (hb : isDig b = true) (hc : isDig c = true) (hd : isDig d = true)
    (hf : isDig f = true) (hg : isDig g = true) (hi : isDig i = true)
    (hj : isDig j = true) (hk : isDig k = true) (hm : isDig m1 = true) :
    strptimeYmdT [a, b, c, d, '-', f, g, '-', i, j, 'T', k, m1, ':'] = none := by
  have hgd : g ≠ '-' := isDig_ne_of g '-' hg (by decide)
  have hjT : j ≠ 'T' := isDig_ne_of j 'T' hj (by decide)
  have hjt : j ≠ 't' := isDig_ne_of j 't' hj (by decide)
  have hmc : m1 ≠ ':' := isDig_ne_of m1 ':' hm (by decide)
  have hraw : strptimeYmdTRaw
      [a, b, c, d, '-', f, g, '-', i, j, 'T', k, m1, ':'] = none := by
    rw [strptimeYmdTRaw]
    rw [if_pos (by simp [ha, hb, hc, hd])]
    apply List.findSome?_eq_none_iff.mpr
    intro mr hmr
    rw [show monthAlts [f, g, '-', i, j, 'T', k, m1, ':'] =
        ((if f = '1' && 48 ≤ g.toNat && g.toNat ≤ 50 then
            [(10 + dval g, ['-', i, j, 'T', k, m1, ':'])] else []) ++
         (if f = '0' && 49 ≤ g.toNat && g.toNat ≤ 57 then
            [(dval g, ['-', i, j, 'T', k, m1, ':'])] else [])) ++
        (if 49 ≤ f.toNat && f.toNat ≤ 57 then
            [(dval f, [g, '-', i, j, 'T', k, m1, ':'])] else []) from rfl] at hmr
    rcases List.mem_append.mp hmr with h1 | h1
    · have hmr2 : mr.2 = ['-', i, j, 'T', k, m1, ':'] := by
        rcases List.mem_append.mp h1 with h2 | h2 <;>
          rw [eq_of_mem_ite_single h2]
      obtain ⟨m, r⟩ := mr
      simp only at hmr2
      subst hmr2
      simp only
      rw [if_pos trivial]
      apply List.findSome?_eq_none_iff.mpr
      intro dr hdr
      rw [show dayAlts [i, j, 'T', k, m1, ':'] =
          (((if i = '3' && (j = '0' || j = '1') then
              [(30 + dval j, ['T', k, m1, ':'])] else []) ++
            (if (i = '1' || i = '2') && isDig j then
              [(10 * dval i + dval j, ['T', k, m1, ':'])] else []) ++
            (if i = '0' && 49 ≤ j.toNat && j.toNat ≤ 57 then
              [(dval j, ['T', k, m1, ':'])] else []))) ++
          (if 49 ≤ i.toNat && i.toNat ≤ 57 then
              [(dval i, [j, 'T', k, m1, ':'])] else []) from rfl] at hdr
      rcases List.mem_append.mp hdr with h3 | h3
      · have hdr2 : dr.2 = ['T', k, m1, ':'] := by
          rcases List.mem_append.mp h3 with h4 | h4
          · rcases List.mem_append.mp h4 with h5 | h5 <;>
              rw [eq_of_mem_ite_single h5]
          · rw [eq_of_mem_ite_single h4]
        obtain ⟨dd, r2⟩ := dr
        simp only at hdr2
        subst hdr2
        simp only
        rw [if_pos (by decide)]
        apply List.findSome?_eq_none_iff.mpr
        intro hr hhr
        rw [show hourAlts [k, m1, ':'] =
            ((if k = '2' && 48 ≤ m1.toNat && m1.toNat ≤ 51 then
                [(20 + dval m1, [':'])] else []) ++
             (if (k = '0' || k = '1') && isDig m1 then
                [(10 * dval k + dval m1, [':'])] else [])) ++
            (if isDig k then [(dval k, [m1, ':'])] else []) from rfl] at hhr
        rcases List.mem_append.mp hhr with h6 | h6
        · have hhr2 : hr.2 = [':'] := by
            rcases List.mem_append.mp h6 with h7 | h7 <;>
              rw [eq_of_mem_ite_single h7]
          obtain ⟨hh, r3⟩ := hr
          simp only at hhr2
          subst hhr2
          simp only
          rw [if_pos trivial]
          rfl
        · have hhr2 : hr.2 = [m1, ':'] := by rw [eq_of_mem_ite_single h6]
          obtain ⟨hh, r3⟩ := hr
          simp only at hhr2
          subst hhr2
          simp only
          rw [if_neg hmc]
      · have hdr2 : dr.2 = [j, 'T', k, m1, ':'] := by
          rw [eq_of_mem_ite_single h3]
        obtain ⟨dd, r2⟩ := dr
        simp only at hdr2
        subst hdr2
        simp only
        rw [if_neg (by simp [hjT, hjt])]
    · have hmr2 : mr.2 = [g, '-', i, j, 'T', k, m1, ':'] := by
        rw [eq_of_mem_ite_single h1]
      obtain ⟨m, r⟩ := mr
      simp only at hmr2
      subst hmr2
      simp only
      rw [if_neg hgd]
  rw [strptimeYmdT, hraw]
  rfl



theorem digit_dash_false (x : Char) (hx : isDig x = true) : ¬(x = '-') :=
  isDig_ne_of x '-' hx (by decide)

theorem tryFormats_ymd_none (a b c d f g i j : Char) (ha : isDig a = true)
    (hb : isDig b = true) (hc : isDig c = true) (hd : isDig d = true)
    (hf : isDig f = true) (hg : isDig g = true) (hi : isDig i = true)
    (hj : isDig j = true) :
    tryFormats [a, b, c, d, '-', f, g, '-', i, j] = none := by
  have hdc : dashCount [a, b, c, d, '-', f, g, '-', i, j] = 2 := by
    simp [dashCount, digit_dash_false a ha, digit_dash_false b hb,
      digit_dash_false c hc, digit_dash_false d hd, digit_dash_false f hf,
      digit_dash_false g hg, digit_dash_false i hi, digit_dash_false j hj]
  rw [tryFormats, hdc]
  rw [show List.take (5 + 2) [a, b, c, d, '-', f, g, '-', i, j] =
      [a, b, c, d, '-', f, g] from rfl]
  rw [fmt1A a b c d f g ha hb hc hd hf hg]
  rw [show List.take (12 + 2) [a, b, c, d, '-', f, g, '-', i, j] =
      [a, b, c, d, '-', f, g, '-', i, j] from rfl]
  rw [fmt2C a b c d f g i j ha hb hc hd hf hg hi hj]

theorem tryFormats_ymdT_none (a b c d f g i j k m1 n o p q1 : Char)
    (ha : isDig a = true) (hb : isDig b = true) (hc : isDig c = true)
    (hd : isDig d = true) (hf : isDig f = true) (hg : isDig g = true)
    (hi : isDig i = true) (hj : isDig j = true) (hk : isDig k = true)
    (hm : isDig m1 = true) (hn : isDig n = true) (ho : isDig o = true)
    (hp : isDig p = true) (hq : isDig q1 = true) :
    tryFormats [a, b, c, d, '-', f, g, '-', i, j, 'T', k, m1, ':', n, o,
      ':', p, q1, 'Z'] = none := by
  have hdc : dashCount [a, b, c, d, '-', f, g, '-', i, j, 'T', k, m1, ':',
      n, o, ':', p, q1, 'Z'] = 2 := by
    simp [dashCount, digit_dash_false a ha, digit_dash_false b hb,
      digit_dash_false c hc, digit_dash_false d hd, digit_dash_false f hf,
      digit_dash_false g hg, digit_dash_false i hi, digit_dash_false j hj,
      digit_dash_false k hk, digit_dash_false m1 hm, digit_dash_false n hn,
      digit_dash_false o ho, digit_dash_false p hp, digit_dash_false q1 hq]
  rw [tryFormats, hdc]
  rw [show List.take (5 + 2) [a, b, c, d, '-', f, g, '-', i, j, 'T', k, m1,
      ':', n, o, ':', p, q1, 'Z'] = [a, b, c, d, '-', f, g] from rfl]
  rw [fmt1A a b c d f g ha hb hc hd hf hg]
  rw [show List.take (12 + 2) [a, b, c, d, '-', f, g, '-', i, j, 'T', k, m1,
      ':', n, o, ':', p, q1, 'Z'] =
      [a, b, c, d, '-', f, g, '-', i, j, 'T', k, m1, ':'] from rfl]
  rw [fmt2B a b c d f g i j k m1 ha hb hc hd hf hg hi hj hk hm]



theorem parseCore_eq_amended (l : List Char) :
    parseCore l = amendedParseCore l := by
  by_cases hY : exactYmdShape l = true
  · rcases l with _ | ⟨a, _ | ⟨b, _ | ⟨c, _ | ⟨d, _ | ⟨e, _ | ⟨f, _ | ⟨g, _ | ⟨h, _ | ⟨i, _ | ⟨j, _ | ⟨xx, rest⟩⟩⟩⟩⟩⟩⟩⟩⟩⟩⟩
    all_goals simp only [exactYmdShape, Bool.and_eq_true, decide_eq_true_eq,
      Bool.false_eq_true, and_assoc] at hY
    obtain ⟨ha, hb, hc, hd, he, hf2, hg, hh, hi2, hj⟩ := hY
    subst he
    subst hh
    have hY2 : exactYmdShape [a, b, c, d, '-', f, g, '-', i, j] = true := by
      simp [exactYmdShape, ha, hb, hc, hd, hf2, hg, hi2, hj]
    have htf := tryFormats_ymd_none a b c d f g i j ha hb hc hd hf2 hg hi2 hj
    have hs10 : shape10 [a, b, c, d, '-', f, g, '-', i, j] = true := rfl
    rw [parseCore, htf, if_pos hs10,
      show List.take 10 [a, b, c, d, '-', f, g, '-', i, j] =
        [a, b, c, d, '-', f, g, '-', i, j] from rfl,
      amendedParseCore, if_pos hY2,
      if_neg (show ¬(exactYmdTShape [a, b, c, d, '-', f, g, '-', i, j] = true)
        by simp [exactYmdTShape]),
      htf, if_pos hs10,
      show List.take 10 [a, b, c, d, '-', f, g, '-', i, j] =
        [a, b, c, d, '-', f, g, '-', i, j] from rfl]
    rcases hres : strptimeYmd [a, b, c, d, '-', f, g, '-', i, j] with _ | dd <;>
      rfl
  · by_cases hT : exactYmdTShape l = true
    · rcases l with _ | ⟨a, _ | ⟨b, _ | ⟨c, _ | ⟨d, _ | ⟨e, _ | ⟨f, _ | ⟨g, _ | ⟨h, _ | ⟨i, _ | ⟨j, _ | ⟨t1, _ | ⟨k, _ | ⟨m1, _ | ⟨o1, _ | ⟨n, _ | ⟨o, _ | ⟨o2, _ | ⟨p, _ | ⟨q1, _ | ⟨z1, _ | ⟨xx, rest⟩⟩⟩⟩⟩⟩⟩⟩⟩⟩⟩⟩⟩⟩⟩⟩⟩⟩⟩⟩⟩
      all_goals simp only [exactYmdTShape, Bool.and_eq_true, decide_eq_true_eq,
        Bool.false_eq_true, and_assoc] at hT
      obtain ⟨ha, hb, hc, hd, he, hf2, hg, hh, hi2, hj, ht1, hk, hm, ho1,
        hn, ho, ho2, hp, hq, hz1⟩ := hT
      subst he
      subst hh
      subst ht1
      subst ho1
      subst ho2
      subst hz1
      have hT2 : exactYmdTShape [a, b, c, d, '-', f, g, '-', i, j, 'T', k, m1,
          ':', n, o, ':', p, q1, 'Z'] = true := by
        simp [exactYmdTShape, ha, hb, hc, hd, hf2, hg, hi2, hj, hk, hm, hn,
          ho, hp, hq]
      have htf := tryFormats_ymdT_none a b c d f g i j k m1 n o p q1
        ha hb hc hd hf2 hg hi2 hj hk hm hn ho hp hq
      have hs10 : shape10 [a, b, c, d, '-', f, g, '-', i, j, 'T', k, m1,
          ':', n, o, ':', p, q1, 'Z'] = true := rfl
      rw [parseCore, htf, if_pos hs10,
        show List.take 10 [a, b, c, d, '-', f, g, '-', i, j, 'T', k, m1,
          ':', n, o, ':', p, q1, 'Z'] = [a, b, c, d, '-', f, g, '-', i, j]
          from rfl,
        amendedParseCore, if_neg hY, if_pos hT2,
        htf, if_pos hs10,
        show List.take 10 [a, b, c, d, '-', f, g, '-', i, j, 'T', k, m1,
          ':', n, o, ':', p, q1, 'Z'] = [a, b, c, d, '-', f, g, '-', i, j]
          from rfl]
      rcases hres : strptimeYmd [a, b, c, d, '-', f, g, '-', i, j] with _ | dd <;>
        rfl
    · rw [parseCore, amendedParseCore, if_neg hY, if_neg hT]


/-- C9 counterexample: on the input string `1952-03-11--` the claimed
pipeline (first-10-characters rule) yields 1952-03-11, but the
implementation's format loop parses the dash-count-dependent prefix
`1952-03-1` first and returns 1952-03-01. -/
theorem C9_parse_pipeline_counterexample :
    pyParseDateStr "1952-03-11--" = some ⟨1952, 3, 1⟩ ∧
    claimParseDate "1952-03-11--" = some ⟨1952, 3, 11⟩ ∧
    pyParseDateStr "1952-03-11--" ≠ claimParseDate "1952-03-11--" := by
  refine ⟨by decide, by decide, by decide⟩

/-- C9 as amended: parsing strips surrounding whitespace and all leading
plus signs; strings of exact shape `YYYY-MM-DD` or `YYYY-MM-DDTHH:MM:SSZ`
are accepted with the calendar date (part) exactly as claimed; on other
inputs the implementation first attempts exact `strptime` parses of the
two dash-count-dependent prefixes (which admit non-zero-padded forms) and
only then tries the first 10 characters as `YYYY-MM-DD` and finally the
first 4 characters as a year in 1..9999; when both sides fail to parse,
`compare` returns score 0 with reason `invalid_date_format` and does not
throw. -/
theorem C9_parse_rules_amended (st : MatchingSettings) :
    (∀ s : String, pyParseDateStr s = amendedParseDate s) ∧
    (∀ a b : DateVal, parseDateVal a = none → parseDateVal b = none →
      dateCompare st (some a) (some b) =
        ⟨.date, 0, st.date_weight, .invalidDateFormat⟩) := by
  constructor
  · intro s
    rw [pyParseDateStr, amendedParseDate]
    exact parseCore_eq_amended _
  · intro a b hpa hpb
    rw [show dateCompare st (some a) (some b) =
        dateCompareParsed st (parseDateVal a) (parseDateVal b) from rfl,
      hpa, hpb]
    rfl

/-- Witness for the amended C9 at concrete inputs. -/
theorem C9_parse_rules_amended_witness :
    pyParseDateStr "1952-03-11--" = amendedParseDate "1952-03-11--" ∧
    dateCompare defaultMatching (some (.str "abc")) (some (.str "")) =
      ⟨.date, 0, defaultMatching.date_weight, .invalidDateFormat⟩ :=
  ⟨(C9_parse_rules_amended defaultMatching).1 "1952-03-11--",
   (C9_parse_rules_amended defaultMatching).2 (.str "abc") (.str "")
     (by decide) (by decide)⟩


end RecordLinker
